import Mathlib

/-!
Verification development for the exam-PDF structuring pipeline
(text extraction → OCR context selection → question segmentation →
sub-question linking → mark-based difficulty scoring → cleaning /
deduplication).

The Python modules are shallowly embedded: each dictionary that travels
through the pipeline is a record with `Option` fields (a missing key is
`none`), numbers that Python stores as floats are rationals (`ℚ`), and
each regex of the source is hand-compiled to an executable matcher over
`List Char` with the same backtracking behaviour on the character classes
the pattern uses.
-/

set_option maxRecDepth 10000

/-- A question dictionary as it travels through the pipeline.  The record
is the union of the keys the Python code reads or writes on a question
dict; a key that is absent from a given dict is `none` (for
`is_sub_question` the code always reads with default `False`, so the
field is a plain `Bool`). -/
structure Qd where
  question_number : Option Int := none
  text : String := ""
  question_type : Option String := none
  qlength : Option Nat := none
  question_marks : Option ℚ := none
  topics : List String := []
  difficulty_score : Option ℚ := none
  is_sub_question : Bool := false
  parent_question_number : Option Int := none
  id : Option Int := none
  original_length : Option Nat := none
  cleaned_length : Option Nat := none
  options : Option (List String) := none
  num_options : Option Nat := none
  deriving DecidableEq, Repr

/-! ### Character helpers shared by the regex embeddings -/

/-- Python's `\s` class (and `str.strip` set) restricted to ASCII:
space, tab, newline, carriage return, vertical tab, form feed. -/
def isPyWS (c : Char) : Bool :=
  c = ' ' || c = '\t' || c = '\n' || c = '\r' || c = '\x0b' || c = '\x0c'

/-- ASCII lower-casing, used for `re.IGNORECASE` and `str.lower`. -/
def pyLower (c : Char) : Char :=
  if 'A' ≤ c ∧ c ≤ 'Z' then Char.ofNat (c.toNat + 32) else c

/-- ASCII upper-casing, used for `str.upper`. -/
def pyUpper (c : Char) : Char :=
  if 'a' ≤ c ∧ c ≤ 'z' then Char.ofNat (c.toNat - 32) else c

def isAsciiDigit (c : Char) : Bool := '0' ≤ c && c ≤ '9'

/-- Numeric value of a digit run (`int(...)` / `float(...)` on a `\d+`
capture). -/
def digitsToNat (ds : List Char) : Nat :=
  ds.foldl (fun n c => 10 * n + (c.toNat - '0'.toNat)) 0

/-- Case-insensitive literal match: consume `lit` (given lower-case)
from the front of `cs`, returning the remainder. -/
def matchLitCI : List Char → List Char → Option (List Char)
  | [], cs => some cs
  | _ :: _, [] => none
  | l :: ls, c :: cs => if pyLower c = l then matchLitCI ls cs else none

/-- Case-sensitive literal match. -/
def matchLit : List Char → List Char → Option (List Char)
  | [], cs => some cs
  | _ :: _, [] => none
  | l :: ls, c :: cs => if c = l then matchLit ls cs else none

/-- Embedding of `str.strip()`: drop Python whitespace from both ends. -/
def pyStrip (cs : List Char) : List Char :=
  ((cs.dropWhile isPyWS).reverse.dropWhile isPyWS).reverse

/-- Embedding of `sub in s` on character lists (Python substring containment). -/
def containsSub (needle : List Char) : List Char → Bool
  | [] => (matchLit needle []).isSome
  | c :: cs => (matchLit needle (c :: cs)).isSome || containsSub needle cs

/-- Scan left to right for the first position where the position matcher
`m` succeeds (the semantics of taking the first `re.findall` result for
patterns whose matches cannot be empty). -/
def firstMatchScan {α : Type} (m : List Char → Option α) : List Char → Option α
  | [] => m []
  | c :: cs => match m (c :: cs) with
    | some v => some v
    | none => firstMatchScan m cs

/-- Split off everything before and after the first occurrence of
`sep` (a nonempty separator). -/
def firstSepSplit (sep : List Char) : List Char → Option (List Char × List Char)
  | [] => none
  | c :: cs =>
    match matchLit sep (c :: cs) with
    | some rest => some ([], rest)
    | none => (firstSepSplit sep cs).map (fun p => (c :: p.1, p.2))

/-- Python `str.split(sep)` for a nonempty separator (fuel-structural;
each found separator consumes at least one character, so the
`text.length + 1` fuel passed by `pySplit` is never exhausted). -/
def pySplitF (sep : List Char) : Nat → List Char → List (List Char)
  | 0, cs => [cs]
  | fuel + 1, cs =>
    match firstSepSplit sep cs with
    | some (pre, post) => pre :: pySplitF sep fuel post
    | none => [cs]

def pySplit (s : String) (sep : String) : List String :=
  (pySplitF sep.data (s.data.length + 1) s.data).map String.mk

/-- Embedding of `sep.join(parts)` on character lists. -/
def joinCharsWith (sep : List Char) : List (List Char) → List Char
  | [] => []
  | [x] => x
  | x :: y :: rest => x ++ sep ++ joinCharsWith sep (y :: rest)

/-! ### `data_cleaning/validators/difficulty_calculator.py` -/

namespace DifficultyCalculator

/-- Remainders after the alternation `(?:pts?|points?|marks?)` at the
front of `cs`, in the backtracking order of the regex engine (each
alternative tried in order, the optional `s` taken greedily first). -/
def unitRemainders (cs : List Char) : List (List Char) :=
  let alt : String → List (List Char) := fun stem =>
    match matchLitCI stem.data cs with
    | none => []
    | some r =>
      match r with
      | c :: r2 => if pyLower c = 's' then [r2, r] else [r]
      | [] => [r]
  alt "pt" ++ alt "point" ++ alt "mark"

/-- Pattern `\((\d+)\s*(?:pts?|points?|marks?)\)` at one position. -/
def matchMarkParenUnit (cs : List Char) : Option Nat :=
  match cs with
  | '(' :: r1 =>
    let ds := r1.takeWhile isAsciiDigit
    let r2 := r1.dropWhile isAsciiDigit
    if ds = [] then none else
    let r3 := r2.dropWhile isPyWS
    if (unitRemainders r3).any (fun r => r.head? = some ')') then
      some (digitsToNat ds)
    else none
  | _ => none

/-- Pattern `\[(\d+)\s*(?:pts?|points?|marks?|MARKS?)\]` at one position
(the `MARKS?` alternative is subsumed by `marks?` under `IGNORECASE`). -/
def matchMarkBracketUnit (cs : List Char) : Option Nat :=
  match cs with
  | '[' :: r1 =>
    let ds := r1.takeWhile isAsciiDigit
    let r2 := r1.dropWhile isAsciiDigit
    if ds = [] then none else
    let r3 := r2.dropWhile isPyWS
    if (unitRemainders r3).any (fun r => r.head? = some ']') then
      some (digitsToNat ds)
    else none
  | _ => none

/-- Pattern `(\d+)\s*(?:pts?|points?|marks?)\s*[\.\)]` at one position. -/
def matchMarkUnitDot (cs : List Char) : Option Nat :=
  let ds := cs.takeWhile isAsciiDigit
  let r2 := cs.dropWhile isAsciiDigit
  if ds = [] then none else
  let r3 := r2.dropWhile isPyWS
  if (unitRemainders r3).any (fun r =>
      match (r.dropWhile isPyWS).head? with
      | some '.' => true
      | some ')' => true
      | _ => false) then
    some (digitsToNat ds)
  else none

/-- Pattern `\((\d+)\)` at one position. -/
def matchMarkBareParen (cs : List Char) : Option Nat :=
  match cs with
  | '(' :: r1 =>
    let ds := r1.takeWhile isAsciiDigit
    let r2 := r1.dropWhile isAsciiDigit
    if ds = [] then none else
    if r2.head? = some ')' then some (digitsToNat ds) else none
  | _ => none

/-- Pattern `(\d+)\s*(?:pts?|points?|marks?)(?:\s|$)` at one position. -/
def matchMarkUnitEnd (cs : List Char) : Option Nat :=
  let ds := cs.takeWhile isAsciiDigit
  let r2 := cs.dropWhile isAsciiDigit
  if ds = [] then none else
  let r3 := r2.dropWhile isPyWS
  if (unitRemainders r3).any (fun r =>
      match r.head? with
      | none => true
      | some c => isPyWS c) then
    some (digitsToNat ds)
  else none

/-- Pattern `worth\s+(\d+)\s*(?:pts?|points?|marks?)` at one position. -/
def matchMarkWorth (cs : List Char) : Option Nat :=
  match matchLitCI "worth".data cs with
  | none => none
  | some r1 =>
    let ws := r1.takeWhile isPyWS
    let r2 := r1.dropWhile isPyWS
    if ws = [] then none else
    let ds := r2.takeWhile isAsciiDigit
    let r3 := r2.dropWhile isAsciiDigit
    if ds = [] then none else
    let r4 := r3.dropWhile isPyWS
    if (unitRemainders r4) ≠ [] then some (digitsToNat ds) else none

/-- Pattern `(\d+)\s*(?:pts?|points?|marks?)\s*each` at one position. -/
def matchMarkEach (cs : List Char) : Option Nat :=
  let ds := cs.takeWhile isAsciiDigit
  let r2 := cs.dropWhile isAsciiDigit
  if ds = [] then none else
  let r3 := r2.dropWhile isPyWS
  if (unitRemainders r3).any (fun r =>
      (matchLitCI "each".data (r.dropWhile isPyWS)).isSome) then
    some (digitsToNat ds)
  else none

/-- The ordered mark-pattern cascade of `DifficultyCalculator.__init__`. -/
def markPatternList : List (List Char → Option Nat) :=
  [matchMarkParenUnit, matchMarkBracketUnit, matchMarkUnitDot,
   matchMarkBareParen, matchMarkUnitEnd, matchMarkWorth, matchMarkEach]

/-- The pattern loop of `extract_question_marks`: the first pattern
whose leftmost match captures a positive number wins; a zero capture
falls through to the next pattern (mirroring `if marks > 0: return`). -/
def tryMarkPatterns : List (List Char → Option Nat) → List Char → Option Nat
  | [], _ => none
  | m :: rest, cs =>
    match firstMatchScan m cs with
    | some n => if 0 < n then some n else tryMarkPatterns rest cs
    | none => tryMarkPatterns rest cs

/-- Embedding of `DifficultyCalculator.extract_question_marks` (the captured digits
are `float`ed, embedded as the cast to ℚ). -/
def extractQuestionMarks (text : String) : Option ℚ :=
  if text = "" then none else
  (tryMarkPatterns markPatternList text.data).map (fun n => (n : ℚ))

/-- Exam-level metadata dict, as read by the difficulty calculator. -/
structure ExamData where
  total_marks_from_cover : Option ℚ := none
  deriving DecidableEq, Repr

/-- The summing loop of `calculate_total_exam_marks` (running total and
`found_any` flag threaded through the question list). -/
def sumMarksLoop : List Qd → ℚ → Bool → Option ℚ
  | [], total, found => if found then some total else none
  | q :: rest, total, found =>
    match extractQuestionMarks q.text with
    | some m => sumMarksLoop rest (total + m) true
    | none => sumMarksLoop rest total found

/-- Embedding of `DifficultyCalculator.calculate_total_exam_marks`.  The guard
`if exam_data and exam_data.get('total_marks_from_cover')` is Python
truthiness: a missing dict, a missing key or a zero value all skip
the cover branch. -/
def calculateTotalExamMarks (questions : List Qd) (examData : Option ExamData) :
    Option ℚ :=
  let fallback := sumMarksLoop questions 0 false
  match examData with
  | some ed =>
    match ed.total_marks_from_cover with
    | some c =>
      if c ≠ 0 then
        if 10 ≤ c ∧ c ≤ 300 then some c else fallback
      else fallback
    | none => fallback
  | none => fallback

/-- Embedding of `DifficultyCalculator.calculate_difficulty_score`. -/
def calculateDifficultyScore (questionMarks totalExamMarks : Option ℚ) :
    Option ℚ :=
  match questionMarks, totalExamMarks with
  | some q, some t =>
    if t ≤ 0 then none
    else some (max 0 (min 1 (q / t)))
  | _, _ => none

/-- The stats dict built by `process_exam_questions`. -/
structure DiffStats where
  total_exam_marks : Option ℚ := none
  questions_with_marks : Nat := 0
  questions_without_marks : Nat := 0
  questions_with_scores : Nat := 0
  marks_source : Option String := none
  deriving DecidableEq, Repr

/-- Embedding of `DifficultyCalculator.process_exam_questions`: first pass extracts
per-question marks, the chosen total comes from
`calculate_total_exam_marks`, a total above 300 is discarded as an
extraction error, and the second pass writes `difficulty_score` and
`question_marks` onto a copy of each question. -/
def processExamQuestions (questions : List Qd) (examData : Option ExamData) :
    List Qd × DiffStats :=
  let marksList := questions.map (fun q => extractQuestionMarks q.text)
  let withMarks := (marksList.filter Option.isSome).length
  let withoutMarks := (marksList.filter Option.isNone).length
  let totalMarks0 := calculateTotalExamMarks questions examData
  let coverVal : Option ℚ :=
    match examData with
    | some ed =>
      match ed.total_marks_from_cover with
      | some c => if c ≠ 0 then some c else none
      | none => none
    | none => none
  let marksSource : Option String :=
    match coverVal with
    | some c => if totalMarks0 = some c then some "cover_page"
        else if totalMarks0 ≠ none ∧ totalMarks0 ≠ some 0 then
          some "calculated_sum"
        else none
    | none =>
      if totalMarks0 ≠ none ∧ totalMarks0 ≠ some 0 then some "calculated_sum"
      else none
  let totalMarks : Option ℚ :=
    match totalMarks0 with
    | some t => if 300 < t then none else some t
    | none => none
  let updated := (questions.zip marksList).map (fun p =>
    { p.1 with
        difficulty_score := calculateDifficultyScore p.2 totalMarks,
        question_marks := p.2 })
  let withScores :=
    (updated.filter (fun q => q.difficulty_score.isSome)).length
  (updated,
   { total_exam_marks := totalMarks,
     questions_with_marks := withMarks,
     questions_without_marks := withoutMarks,
     questions_with_scores := withScores,
     marks_source := marksSource })

/-- The fallback sum, stated declaratively: `none` when no question
yields marks, otherwise the sum of all extracted per-question marks. -/
def summedFallbackSpec (questions : List Qd) : Option ℚ :=
  let ms := questions.filterMap (fun q => extractQuestionMarks q.text)
  if ms = [] then none else some ms.sum

end DifficultyCalculator

/-! ### `text_extraction/question_parsing/sub_question_detector.py` -/

namespace SubQuestionDetector

def isAsciiLower (c : Char) : Bool := 'a' ≤ c && c ≤ 'z'

/-- Embedding of `[a-z]` under `re.IGNORECASE`. -/
def isLetterCI (c : Char) : Bool := isAsciiLower (pyLower c)

/-- Embedding of `[ivx]` under `re.IGNORECASE`. -/
def isRomanCI (c : Char) : Bool :=
  pyLower c = 'i' || pyLower c = 'v' || pyLower c = 'x'

/-- Embedding of `SubQuestionDetector.is_sub_question_marker`: the ten anchored
sub-marker patterns reduce to: after stripping, the text starts with
`x)` or `(x)` or `x.` for a single letter `x`, or `r.` or `(r)` for a
nonempty run `r` of `i`/`v`/`x` (case-insensitive; the
with-space/without-space pattern pairs collapse, since requiring
nothing after the marker subsumes requiring a space). -/
def isSubQuestionMarker (text : String) : Bool :=
  if text = "" then false else
  match pyStrip text.data with
  | c :: ')' :: _ => isLetterCI c
  | '(' :: c :: ')' :: _ => isLetterCI c
  | c :: '.' :: _ => isLetterCI c
  | _ => false
  ||
  match pyStrip text.data with
  | '(' :: rest =>
    let run := rest.takeWhile isRomanCI
    run ≠ [] && (rest.dropWhile isRomanCI).head? = some ')'
  | rest =>
    let run := rest.takeWhile isRomanCI
    run ≠ [] && (rest.dropWhile isRomanCI).head? = some '.'

/-- Embedding of `SubQuestionDetector.is_main_question`: the six anchored main-marker
patterns over the stripped text: `\d+\.\s`, `\d+\.`, `Question\s+\d+`,
`Q\d+\.`, `\d+\)\s`, `\d+\s` (case-insensitive).  They reduce to: a
leading digit run followed by `.`, or by `)` plus whitespace, or by
whitespace; or `Question` + whitespace + digit; or `Q` + digits + `.`. -/
def isMainQuestion (text : String) : Bool :=
  if text = "" then false else
  let cs := pyStrip text.data
  let ds := cs.takeWhile isAsciiDigit
  let r := cs.dropWhile isAsciiDigit
  (ds ≠ [] && (match r.head? with
    | some '.' => true
    | some ')' => (r.drop 1).head?.any isPyWS
    | some c => isPyWS c
    | none => false))
  ||
  (match matchLitCI "question".data cs with
   | some r1 =>
     let ws := r1.takeWhile isPyWS
     ws ≠ [] && (r1.dropWhile isPyWS).head?.any isAsciiDigit
   | none => false)
  ||
  (match cs with
   | c :: r1 =>
     pyLower c = 'q' &&
     (let ds1 := r1.takeWhile isAsciiDigit
      ds1 ≠ [] && (r1.dropWhile isAsciiDigit).head? = some '.')
   | [] => false)

/-- The per-question body of the `detect_sub_questions` loop: `q` is the
current question, `prev` the question at the previous index of the
*input* list (`questions[i-1]` — the original dict, not the updated
copy), `none` for the first question. -/
def detectStep (q : Qd) (prev : Option Qd) : Qd :=
  if isSubQuestionMarker q.text then
    match prev with
    | none => q
    | some p =>
      if isMainQuestion p.text then
        { q with question_type := some "sub_question",
                 is_sub_question := true,
                 parent_question_number := p.question_number }
      else if p.question_type = some "sub_question" ∨ p.is_sub_question then
        { q with question_type := some "sub_question",
                 is_sub_question := true,
                 parent_question_number :=
                   match p.parent_question_number with
                   | some n => some n
                   | none => p.question_number }
      else q
  else q

/-- The loop of `detect_sub_questions`, threading the previous *input*
question. -/
def detectLoop : Option Qd → List Qd → List Qd
  | _, [] => []
  | prev, q :: rest => detectStep q prev :: detectLoop (some q) rest

/-- Embedding of `SubQuestionDetector.detect_sub_questions`. -/
def detectSubQuestions (questions : List Qd) : List Qd :=
  detectLoop none questions

/-- Inputs as produced by the segmentation stage: no unit is already
flagged as a sub-question and every unit carries a question number. -/
def pipelineInput (questions : List Qd) : Prop :=
  ∀ q ∈ questions, q.is_sub_question = false ∧
    q.question_type ≠ some "sub_question" ∧ q.question_number ≠ none

instance (questions : List Qd) : Decidable (pipelineInput questions) := by
  unfold pipelineInput
  infer_instance

end SubQuestionDetector

/-! ### `text_extraction/pdf_processing/ocr_context_selector.py` -/

namespace OCRContextSelector

/-- One value of the `language_courses` table. -/
structure LangInfo where
  lang : String
  language_name : String
  needs_translation : Bool
  deriving DecidableEq, Repr

/-- The `language_courses` table. -/
def languageCourses : List (String × LangInfo) :=
  [("ARAB", ⟨"ara+eng", "Arabic", false⟩),
   ("FREN", ⟨"fra+eng", "French", false⟩),
   ("SPAN", ⟨"spa+eng", "Spanish", false⟩),
   ("GERM", ⟨"deu+eng", "German", false⟩),
   ("ITAL", ⟨"ita+eng", "Italian", false⟩),
   ("CHIN", ⟨"chi_sim+eng", "Chinese", false⟩),
   ("JAPA", ⟨"jpn+eng", "Japanese", false⟩),
   ("KORE", ⟨"kor+eng", "Korean", false⟩),
   ("RUSS", ⟨"rus+eng", "Russian", false⟩),
   ("PORT", ⟨"por+eng", "Portuguese", false⟩)]

/-- The `math_courses` set. -/
def mathCourses : List String :=
  ["MATH", "STAT", "PHYS", "CHEM", "ENGR", "ELEC", "MECH", "CIVL"]

def mathKeywords : List String :=
  ["equation", "formula", "derivative", "integral", "calculus",
   "algebra", "geometry", "trigonometry", "matrix", "vector",
   "solve for", "calculate", "show that", "prove that"]

def languageKeywords : List String :=
  ["translate", "translation", "grammar", "vocabulary",
   "conjugate", "verb", "adjective", "noun", "pronoun"]

/-- The OCR configuration dict returned by `detect_exam_type`
(`needs_translation` is only present on the language path). -/
structure OCRConfig where
  ocr_language : String := "eng"
  exam_type : String := "general"
  needs_math_ocr : Bool := false
  detected_language : Option String := none
  ocr_config : String := "--psm 6"
  recommended_ocr_method : String := "tesseract"
  needs_translation : Option Bool := none
  deriving DecidableEq, Repr

def isAsciiUpper (c : Char) : Bool := 'A' ≤ c && c ≤ 'Z'

/-- Embedding of `re.match(r'^([A-Z]{2,4})', code)`: the greedy leading run of
uppercase letters, capped at four, requiring at least two. -/
def coursePrefixMatch (code : String) : Option String :=
  let run := (code.data.takeWhile isAsciiUpper).take 4
  if 2 ≤ run.length then some (String.mk run) else none

/-- Lower-cased copy of a string (`str.lower`, ASCII). -/
def strLower (s : String) : String := String.mk (s.data.map pyLower)

/-- Embedding of `sub in text` for strings. -/
def strContains (hay needle : String) : Bool := containsSub needle.data hay.data

/-- The free-text scan of `detect_exam_type` (the part after the
course-prefix checks). -/
def textScan (result : OCRConfig) (text : String) : OCRConfig :=
  let textLower := strLower text
  let r1 :=
    if languageKeywords.any (fun k => strContains textLower k) then
      if strContains textLower "arabic" || strContains text "عربي" then
        { result with ocr_language := "ara+eng", exam_type := "language",
                      detected_language := some "Arabic" }
      else if strContains textLower "french" || strContains text "français" then
        { result with ocr_language := "fra+eng", exam_type := "language",
                      detected_language := some "French" }
      else if strContains textLower "spanish" || strContains text "español" then
        { result with ocr_language := "spa+eng", exam_type := "language",
                      detected_language := some "Spanish" }
      else result
    else result
  if mathKeywords.any (fun k => strContains textLower k) then
    { r1 with exam_type := "math", needs_math_ocr := true,
              recommended_ocr_method := "mathpix_or_tesseract" }
  else r1

/-- Embedding of `OCRContextSelector.detect_exam_type`. -/
def detectExamType (courseCode : Option String) (firstPageText : Option String) :
    OCRConfig :=
  let result : OCRConfig := {}
  let afterCode : Option OCRConfig :=
    match courseCode with
    | some code =>
      if code ≠ "" then
        let codeU := String.mk (code.data.map pyUpper)
        match coursePrefixMatch codeU with
        | some pfx =>
          match (languageCourses.filter (fun p => p.1 = pfx)).head? with
          | some (_, info) =>
            some { result with
                     ocr_language := info.lang,
                     exam_type := "language",
                     detected_language := some info.language_name,
                     needs_translation := some info.needs_translation,
                     ocr_config := "--psm 6" }
          | none =>
            if mathCourses.contains pfx then
              some { result with
                       exam_type := "math",
                       needs_math_ocr := true,
                       ocr_language := "eng",
                       ocr_config := "--psm 6",
                       recommended_ocr_method := "mathpix_or_tesseract" }
            else none
        | none => none
      else none
    | none => none
  match afterCode with
  | some r => r
  | none =>
    match firstPageText with
    | some text => if text ≠ "" then textScan result text else result
    | none => result

end OCRContextSelector

/-! ### `text_extraction/pdf_processing/text_extractor.py` -/

namespace TextExtractor

/-- Outcome of opening the PDF with one text-layer library.  `raises`
abstracts an exception by its message; `opens` carries the library's
encryption report (`pdf.metadata.get('/Encrypted') == 'true'` for
pdfplumber, `doc.needs_pass` for PyMuPDF) and the per-page
`extract_text()` / `get_text()` results (empty string for a page with
no text). -/
inductive LibOutcome where
  | unavailable
  | raises (msg : String)
  | opens (encrypted : Bool) (pages : List String)
  deriving DecidableEq, Repr

/-- The state of a validated poppler directory. -/
inductive PopplerState where
  | missingDir
  | dirWithoutPdftoppm
  | ok
  deriving DecidableEq, Repr

/-- Outcome of `pdf2image.convert_from_path` followed by per-image
`pytesseract.image_to_string`: an exception (by message) or the list of
OCR texts, one per page image. -/
inductive OcrOutcome where
  | raises (msg : String)
  | pages (texts : List String)
  deriving DecidableEq, Repr

/-- A PDF file together with the environment the extractor probes.
File-system and library behaviour is abstracted into fields: what each
text-layer engine reports for this file, whether the OCR dependencies
are importable, the poppler configuration, what OCR produces, and the
course code that `CoverPageParser.extract_course_code` would mine from
the first page (the cover parser itself does I/O and is abstracted as
these two attributes). -/
structure PdfFile where
  fileExists : Bool := true
  plumber : LibOutcome := .unavailable
  mupdf : LibOutcome := .unavailable
  pdf2imageAvailable : Bool := true
  pytesseractAvailable : Bool := true
  poppler : Option PopplerState := none
  ocr : OcrOutcome := .pages []
  firstPageText : Option String := none
  coverCourseCode : Option String := none
  deriving DecidableEq, Repr

/-- The result dict of `extract_text_from_pdf`. -/
structure ExtractResult where
  text : String := ""
  pages : List String := []
  extraction_method : Option String := none
  ocr_config : Option OCRContextSelector.OCRConfig := none
  success : Bool := false
  error : Option String := none
  error_details : List String := []
  deriving DecidableEq, Repr

def encryptedMsg : String := "PDF is password-protected (encrypted)"

def corruptedMsg : String := "PDF appears to be corrupted or damaged"

/-- Error classification applied in both text-layer `except` blocks:
a message mentioning password/encryption or corruption overrides the
generic failure text and is recorded in `result['error']`. -/
def classifyException (libName msg : String) (r : ExtractResult) : ExtractResult :=
  let lowerMsg := OCRContextSelector.strLower msg
  if OCRContextSelector.strContains lowerMsg "password" ||
     OCRContextSelector.strContains lowerMsg "encrypted" then
    { r with error := some encryptedMsg,
             error_details := r.error_details ++ [encryptedMsg] }
  else if OCRContextSelector.strContains lowerMsg "corrupt" ||
          OCRContextSelector.strContains lowerMsg "damaged" then
    { r with error := some corruptedMsg,
             error_details := r.error_details ++ [corruptedMsg] }
  else
    { r with error_details :=
        r.error_details ++ [libName ++ " failed: " ++ msg] }

/-- Embedding of `'\n\n'.join(full_text)`. -/
def joinPages (pages : List String) : String :=
  String.mk (joinCharsWith "\n\n".data (pages.map String.data))

/-- The pdfplumber branch (`if not use_ocr and pdfplumber`).  Returns
`Sum.inl` for the early returns of the source and `Sum.inr` for
falling through to the next method. -/
def plumberBranch (f : PdfFile) (r : ExtractResult) :
    ExtractResult ⊕ ExtractResult :=
  match f.plumber with
  | .unavailable => .inr r
  | .raises msg => .inr (classifyException "pdfplumber" msg r)
  | .opens encrypted pages =>
    if encrypted then
      .inl { r with error := some encryptedMsg,
                    error_details := r.error_details ++ [encryptedMsg] }
    else
      let pagesText := pages.filter (fun t => t ≠ "")
      if pagesText ≠ [] then
        .inl { r with text := joinPages pagesText, pages := pagesText,
                      extraction_method := some "pdfplumber", success := true }
      else .inr r

/-- The PyMuPDF branch (`if not use_ocr and pymupdf`). -/
def mupdfBranch (f : PdfFile) (r : ExtractResult) :
    ExtractResult ⊕ ExtractResult :=
  match f.mupdf with
  | .unavailable => .inr r
  | .raises msg => .inr (classifyException "PyMuPDF" msg r)
  | .opens needsPass pages =>
    if needsPass then
      .inl { r with error := some encryptedMsg,
                    error_details := r.error_details ++ [encryptedMsg] }
    else
      let pagesText := pages.filter (fun t => t ≠ "")
      if pagesText ≠ [] then
        .inl { r with text := joinPages pagesText, pages := pagesText,
                      extraction_method := some "pymupdf", success := true }
      else .inr r

/-- The OCR branch: dependency checks, poppler validation, conversion,
per-image OCR keeping pages whose stripped text is nonempty, and the
empty-output failure. -/
def ocrBranch (f : PdfFile) (ocrLanguage : Option String) (r : ExtractResult) :
    ExtractResult :=
  if ¬ f.pdf2imageAvailable then
    let msg := "pdf2image not installed. Cannot use OCR. Install with: pip install pdf2image"
    { r with error := some msg, error_details := r.error_details ++ [msg] }
  else if ¬ f.pytesseractAvailable then
    let msg := "pytesseract not installed. Cannot use OCR. Install with: pip install pytesseract"
    { r with error := some msg, error_details := r.error_details ++ [msg] }
  else
    match f.poppler with
    | some .missingDir =>
      let msg := "Poppler path specified but does not exist"
      { r with error := some msg, error_details := r.error_details ++ [msg] }
    | some .dirWithoutPdftoppm =>
      let msg := "Poppler path found but pdftoppm not found"
      { r with error := some msg, error_details := r.error_details ++ [msg] }
    | _ =>
      match f.ocr with
      | .raises msg =>
        let fullMsg := "OCR failed: " ++ msg
        { r with error := some fullMsg,
                 error_details := r.error_details ++ [fullMsg] }
      | .pages texts =>
        let kept := texts.filter (fun t => pyStrip t.data ≠ [])
        if kept ≠ [] then
          { r with text := joinPages kept, pages := kept,
                   extraction_method := some "ocr",
                   ocr_config := some (r.ocr_config.getD
                     { ocr_language := ocrLanguage.getD "eng" }),
                   success := true }
        else
          { r with success := false,
                   error := some "OCR extracted no text (empty pages or OCR language issue)",
                   error_details := r.error_details ++
                     ["OCR completed but no text was extracted"] }

/-- Embedding of `TextExtractor.extract_text_from_pdf`. -/
def extractTextFromPdf (f : PdfFile) (useOcr : Bool)
    (ocrLanguage : Option String) (courseCode : Option String) :
    ExtractResult :=
  let r0 : ExtractResult := {}
  if ¬ f.fileExists then
    { r0 with error := some "File not found" }
  else
    -- OCR-config resolution (only when OCR was requested with no language)
    let (ocrLang, r0) : Option String × ExtractResult :=
      if useOcr ∧ ocrLanguage.isNone then
        match courseCode with
        | some code =>
          (some (OCRContextSelector.detectExamType (some code) none).ocr_language, r0)
        | none =>
          match f.firstPageText with
          | some fpt =>
            if fpt ≠ "" then
              match f.coverCourseCode with
              | some code =>
                let cfg := OCRContextSelector.detectExamType (some code) (some fpt)
                (some cfg.ocr_language, { r0 with ocr_config := some cfg })
              | none => (some "eng", r0)
            else (some "eng", r0)
          | none => (some "eng", r0)
      else (ocrLanguage, r0)
    let afterPlumber : ExtractResult ⊕ ExtractResult :=
      if ¬ useOcr then plumberBranch f r0 else .inr r0
    match afterPlumber with
    | .inl final => final
    | .inr r1 =>
      let afterMupdf : ExtractResult ⊕ ExtractResult :=
        if ¬ useOcr then mupdfBranch f r1 else .inr r1
      match afterMupdf with
      | .inl final => final
      | .inr r2 =>
        let r3 :=
          if useOcr ∨ (¬ r2.success ∧ f.pytesseractAvailable) then
            ocrBranch f ocrLang r2
          else r2
        -- final error defaulting
        if ¬ r3.success then
          let r4 := if r3.error = none then
              { r3 with error := some "All extraction methods failed" } else r3
          if r4.error_details = [] then
            { r4 with error_details := ["No text could be extracted from PDF"] }
          else r4
        else r3

/-- The early-return result of the explicit encryption check: constant
except for the recorded message. -/
def encryptedResult : ExtractResult :=
  { text := "", pages := [], extraction_method := none, ocr_config := none,
    success := false, error := some encryptedMsg,
    error_details := [encryptedMsg] }

end TextExtractor

/-! ### `text_extraction/question_parsing/parse_questions_from_text.py` -/

namespace QuestionParser

/-- One entry of the `question_splits` list: the raw span text and the
printed number parsed out of the marker. -/
structure Split where
  text : String
  number : Int
  deriving DecidableEq, Repr

/-- Embedding of `QuestionParser._clean_text`: drop lines that are a bare page number
(`^\d+\s*$` on the stripped line) or contain one of five fixed header
strings, and re-join with newlines. -/
def parserCleanText (text : String) : String :=
  let headers : List String :=
    ["QUEEN\x27S UNIVERSITY", "FINAL EXAMINATION", "FACULTY OF",
     "INSTRUCTIONS TO STUDENTS", "ANSWER ALL QUESTIONS"]
  let lines := pySplit text "\n"
  let kept := lines.filter (fun line =>
    let s := pyStrip line.data
    ¬ ((s ≠ [] ∧ s.all isAsciiDigit) ∨
       headers.any (fun h => OCRContextSelector.strContains line h)))
  String.mk (joinCharsWith "\n".data (kept.map String.data))

/-- All positions where the zero-width multiline lookahead
`(?=^...)` succeeds: `m` is tried on the suffix at offset 0 and after
every newline, pairing the offset with the capture. -/
def lineStartMatches {α : Type} (m : List Char → Option α) (cs : List Char) :
    List (Nat × α) :=
  go 0 true cs
where
  go : Nat → Bool → List Char → List (Nat × α)
  | _, _, [] => []
  | i, atStart, c :: rest =>
    (if atStart then
       match m (c :: rest) with
       | some v => [(i, v)]
       | none => []
     else []) ++ go (i + 1) (c = '\n') rest

/-- Embedding of `^(\d+)\.\s+` at one position (pattern 1 of
`extract_questions_from_text`). -/
def matchNumberedAt (cs : List Char) : Option Int :=
  let ds := cs.takeWhile isAsciiDigit
  let r := cs.dropWhile isAsciiDigit
  if ds = [] then none else
  match r with
  | '.' :: c :: _ => if isPyWS c then some ((digitsToNat ds : Nat) : Int) else none
  | _ => none

def isRomanUpper (c : Char) : Bool := c = 'I' || c = 'V' || c = 'X'

/-- Embedding of `QuestionParser._roman_to_int` (fold over the reversed numeral,
subtracting a value smaller than its successor). -/
def romanToInt (roman : List Char) : Int :=
  let romanVal : Char → Int := fun c =>
    if c = 'I' then 1 else if c = 'V' then 5 else if c = 'X' then 10
    else if c = 'L' then 50 else if c = 'C' then 100
    else if c = 'D' then 500 else if c = 'M' then 1000 else 0
  (roman.reverse.foldl
    (fun (st : Int × Int) c =>
      let v := romanVal c
      (if v < st.2 then st.1 - v else st.1 + v, v))
    (0, 0)).1

/-- Embedding of `^([IVX]+)\.\s+` at one position (pattern 2). -/
def matchRomanAt (cs : List Char) : Option Int :=
  let run := cs.takeWhile isRomanUpper
  let r := cs.dropWhile isRomanUpper
  if run = [] then none else
  match r with
  | '.' :: c :: _ => if isPyWS c then some (romanToInt run) else none
  | _ => none

/-- Python slice `text[start:end]` on character lists. -/
def sliceChars (cs : List Char) (start stop : Nat) : List Char :=
  (cs.take stop).drop start

/-- The span-building loop shared by patterns 1 and 2: each match's
start up to the next match's start (or end of text) is one span, which
is stripped and kept only when longer than 20 characters. -/
def collectSpans (cs : List Char) : List (Nat × Int) → List Split
  | [] => []
  | (s, n) :: rest =>
    let e := match rest with
      | [] => cs.length
      | (s2, _) :: _ => s2
    let qt := pyStrip (sliceChars cs s e)
    if 20 < qt.length then
      ⟨String.mk qt, n⟩ :: collectSpans cs rest
    else collectSpans cs rest

def questionKeywords : List String :=
  ["?", "answer", "explain", "calculate", "describe", "discuss"]

/-- Pattern 3, the paragraph fallback: split on blank lines, strip each
paragraph, keep those longer than 50 characters containing a
question-like keyword; the number is the 1-based paragraph index. -/
def paragraphSplits (text : String) : List Split :=
  ((pySplit text "\n\n").enum.filterMap (fun p =>
    let para := String.mk (pyStrip p.2.data)
    if 50 < para.length ∧
       questionKeywords.any (fun k =>
         OCRContextSelector.strContains (OCRContextSelector.strLower para) k) then
      some (⟨para, ((p.1 : Nat) : Int) + 1⟩ : Split)
    else none))

/-- The `question_splits` list computed by
`QuestionParser.extract_questions_from_text` (after `_clean_text`):
numbered markers when they yield at least two matches, else Roman
numerals when they yield at least two, else the paragraph fallback. -/
def extractQuestionSplits (text : String) : List Split :=
  let t := parserCleanText text
  let cs := t.data
  let numbered := lineStartMatches matchNumberedAt cs
  if 2 ≤ numbered.length then collectSpans cs numbered
  else
    let roman := lineStartMatches matchRomanAt cs
    if 2 ≤ roman.length then collectSpans cs roman
    else paragraphSplits t

/-- Embedding of `^Question\s+(\d+)` at one position (the second marker family of
the spec; present in `QuestionParser.question_patterns`). -/
def matchQuestionWordAt (cs : List Char) : Option Int :=
  match matchLit "Question".data cs with
  | none => none
  | some r1 =>
    let ws := r1.takeWhile isPyWS
    let r2 := r1.dropWhile isPyWS
    let ds := r2.takeWhile isAsciiDigit
    if ws ≠ [] ∧ ds ≠ [] then some ((digitsToNat ds : Nat) : Int) else none

/-- Embedding of `^Q(\d+)\.` at one position (third marker family). -/
def matchQnAt (cs : List Char) : Option Int :=
  match cs with
  | 'Q' :: r1 =>
    let ds := r1.takeWhile isAsciiDigit
    let r := r1.dropWhile isAsciiDigit
    if ds ≠ [] ∧ r.head? = some '.' then some ((digitsToNat ds : Nat) : Int)
    else none
  | _ => none

/-- Embedding of `^(\d+)\)\s+` at one position (fourth marker family). -/
def matchNumParenAt (cs : List Char) : Option Int :=
  let ds := cs.takeWhile isAsciiDigit
  let r := cs.dropWhile isAsciiDigit
  if ds = [] then none else
  match r with
  | ')' :: c :: _ => if isPyWS c then some ((digitsToNat ds : Nat) : Int) else none
  | _ => none

/-- Modelled from the claim: segmentation is said to split on the four
main-question marker families (`\d+\.`, `Question N`, `Qn.`, `\d+\)`)
using whichever family yields at least two matches, falling back to
Roman numerals (at least two matches) and then to the paragraph-based
split.  This is the claimed behaviour, to be compared against
`extractQuestionSplits` (the behaviour of the source). -/
def claimedSegmentation (text : String) : List Split :=
  let t := parserCleanText text
  let cs := t.data
  let families :=
    [lineStartMatches matchNumberedAt cs,
     lineStartMatches matchQuestionWordAt cs,
     lineStartMatches matchQnAt cs,
     lineStartMatches matchNumParenAt cs]
  match (families.filter (fun ms => 2 ≤ ms.length)).head? with
  | some ms => collectSpans cs ms
  | none =>
    let roman := lineStartMatches matchRomanAt cs
    if 2 ≤ roman.length then collectSpans cs roman
    else paragraphSplits t

/-- Concrete document on which the claimed and the actual segmentation
disagree: two questions marked with the `Question N` family. -/
def questionWordDoc : String :=
  "Question 1 What is the elasticity of demand in a market?\nQuestion 2 Why does the supply curve slope upward there?"

end QuestionParser

/-! ### `difflib.SequenceMatcher.ratio` (used by the cleaner)

The similarity of two strings is `2*M/T` where `T` is the sum of the
lengths and `M` the total size of the matching blocks found by
`difflib`'s recursive longest-matching-block algorithm.  We embed
`find_longest_match` (the `b2j` chain dynamic programming plus the four
junk-aware extension loops) and the total matched size of
`get_matching_blocks` (sorting/merging of the blocks cannot change the
total, which is all `ratio` reads).  `remove_duplicates` constructs
`SequenceMatcher(None, ...)`, so the junk predicate is empty; the
autojunk "popular" filter only fires on strings of length ≥ 200 and is
embedded as well. -/

namespace Difflib

/-- Embedding of `j2len.get(j, 0)` on an association list. -/
def alookup (l : List (Nat × Nat)) (k : Nat) : Nat :=
  match l.find? (fun p => p.1 = k) with
  | some p => p.2
  | none => 0

/-- One row of the `find_longest_match` dynamic programming: `j2len` is
the previous row, the result is the new row and the updated best
`(besti, bestj, bestsize)` triple (strictly-greater update, so the
earliest maximal block wins, as in the source). -/
def flmRow (i : Nat) (js : List Nat) (j2len : List (Nat × Nat))
    (best : Nat × Nat × Nat) : List (Nat × Nat) × (Nat × Nat × Nat) :=
  js.foldl (fun st j =>
      let k := if j = 0 then 1 else alookup j2len (j - 1) + 1
      let best2 := if st.2.2.2 < k then (i + 1 - k, j + 1 - k, k) else st.2
      ((j, k) :: st.1, best2))
    ([], best)

/-- Front extension loop (fuel-structural image of the `while` loop,
which decreases `besti`; the callers pass fuel `besti + 1`, an upper
bound on its iteration count): extend the best block leftwards over
equal characters whose `b` side satisfies `p`. -/
def extFrontF (a b : List Char) (p : Char → Bool) (alo blo : Nat) :
    Nat → Nat × Nat × Nat → Nat × Nat × Nat
  | 0, st => st
  | fuel + 1, (besti, bestj, size) =>
    if alo < besti ∧ blo < bestj ∧ p (b.getD (bestj - 1) ' ') ∧
        a.getD (besti - 1) ' ' = b.getD (bestj - 1) ' ' then
      extFrontF a b p alo blo fuel (besti - 1, bestj - 1, size + 1)
    else (besti, bestj, size)

def extFront (a b : List Char) (p : Char → Bool) (alo blo : Nat)
    (st : Nat × Nat × Nat) : Nat × Nat × Nat :=
  extFrontF a b p alo blo (st.1 + 1) st

/-- Back extension loop (fuel-structural image of the `while` loop,
which decreases `ahi - (besti + size)`; the callers pass fuel
`ahi + 1`): extend the best block rightwards over equal characters
whose `b` side satisfies `p`. -/
def extBackF (a b : List Char) (p : Char → Bool) (ahi bhi : Nat) :
    Nat → Nat × Nat × Nat → Nat × Nat × Nat
  | 0, st => st
  | fuel + 1, (besti, bestj, size) =>
    if besti + size < ahi ∧ bestj + size < bhi ∧
        p (b.getD (bestj + size) ' ') ∧
        a.getD (besti + size) ' ' = b.getD (bestj + size) ' ' then
      extBackF a b p ahi bhi fuel (besti, bestj, size + 1)
    else (besti, bestj, size)

def extBack (a b : List Char) (p : Char → Bool) (ahi bhi : Nat)
    (st : Nat × Nat × Nat) : Nat × Nat × Nat :=
  extBackF a b p ahi bhi (ahi + 1) st

/-- Embedding of `SequenceMatcher.find_longest_match` on `a[alo:ahi]` / `b[blo:bhi]`:
the chain DP over `b2j`, then the non-junk extension loops, then the
junk extension loops. -/
def findLongestMatch (a b : List Char) (junk : Char → Bool)
    (b2j : Char → List Nat) (alo ahi blo bhi : Nat) : Nat × Nat × Nat :=
  let step := fun (st : List (Nat × Nat) × (Nat × Nat × Nat)) (i : Nat) =>
    let js := (b2j (a.getD i ' ')).filter (fun j => blo ≤ j ∧ j < bhi)
    flmRow i js st.1 st.2
  let best := ((List.range' alo (ahi - alo)).foldl step ([], (alo, blo, 0))).2
  let best := extFront a b (fun c => ¬ junk c) alo blo best
  let best := extBack a b (fun c => ¬ junk c) ahi bhi best
  let best := extFront a b junk alo blo best
  extBack a b junk ahi bhi best

/-- Total size of the matching blocks of `get_matching_blocks`
(fuel-based recursion; the fuel passed by `similarityScore` exceeds the
maximal recursion depth, which is bounded by `(ahi-alo)+(bhi-bhi')`). -/
def matchBlockSum (a b : List Char) (junk : Char → Bool)
    (b2j : Char → List Nat) : Nat → Nat → Nat → Nat → Nat → Nat
  | 0, _, _, _, _ => 0
  | fuel + 1, alo, ahi, blo, bhi =>
    let (i, j, k) := findLongestMatch a b junk b2j alo ahi blo bhi
    if k = 0 then 0
    else
      matchBlockSum a b junk b2j fuel alo i blo j + k +
        matchBlockSum a b junk b2j fuel (i + k) ahi (j + k) bhi

/-- The total number of matched characters of
`SequenceMatcher(None, a, b)`: `b2j` with the autojunk "popular" filter
(only active from length 200), empty junk set (`isjunk` is `None` at
the call site), and the recursive block matching. -/
def simTotal (a b : List Char) : Nat :=
  let n := b.length
  let idx : Char → List Nat :=
    fun c => (List.range n).filter (fun j => b.getD j ' ' = c)
  let b2j : Char → List Nat :=
    if 200 ≤ n then
      fun c => if n / 100 + 1 < (idx c).length then [] else idx c
    else idx
  let junk : Char → Bool := fun _ => false
  matchBlockSum a b junk b2j (a.length + n + 1) 0 a.length 0 n

/-- Embedding of `SequenceMatcher(None, a, b).ratio()` = `2*M/T` (1 when both
strings are empty). -/
def similarityScore (a b : List Char) : ℚ :=
  if a.length + b.length = 0 then 1
  else (2 * simTotal a b : ℚ) / ((a.length + b.length : Nat) : ℚ)

end Difflib

/-! ### `data_cleaning/cleaners/data_cleaner.py` -/

namespace ExamDataCleaner

/-- Generic `re.sub(pattern, '', text)` for patterns that can never
match the empty string: `m` returns the remainder after a match at the
current position; all non-overlapping leftmost matches are deleted.
Fuel-structural: every step shortens the text, so the `text.length + 1`
fuel passed by `reSubDelete` is never exhausted. -/
def reSubDeleteF (m : List Char → Option (List Char)) :
    Nat → List Char → List Char
  | 0, cs => cs
  | _ + 1, [] => []
  | fuel + 1, c :: cs =>
    match m (c :: cs) with
    | some rest =>
      if rest.length < cs.length + 1 then reSubDeleteF m fuel rest
      else c :: reSubDeleteF m fuel cs
    | none => c :: reSubDeleteF m fuel cs

def reSubDelete (m : List Char → Option (List Char)) (cs : List Char) :
    List Char :=
  reSubDeleteF m (cs.length + 1) cs

/-- Embedding of `Page \d+ of \d+` (IGNORECASE) at one position. -/
def matchPageOf (cs : List Char) : Option (List Char) := do
  let r1 ← matchLitCI "page ".data cs
  let ds := r1.takeWhile isAsciiDigit
  let r2 := r1.dropWhile isAsciiDigit
  if ds = [] then none else
  let r3 ← matchLitCI " of ".data r2
  let ds2 := r3.takeWhile isAsciiDigit
  if ds2 = [] then none else
  some (r3.dropWhile isAsciiDigit)

/-- Embedding of `\d+/\d+/\d+` at one position. -/
def matchDateSlash (cs : List Char) : Option (List Char) := do
  let ds := cs.takeWhile isAsciiDigit
  let r1 := cs.dropWhile isAsciiDigit
  if ds = [] then none else
  let r2 ← matchLit "/".data r1
  let ds2 := r2.takeWhile isAsciiDigit
  let r3 := r2.dropWhile isAsciiDigit
  if ds2 = [] then none else
  let r4 ← matchLit "/".data r3
  let ds3 := r4.takeWhile isAsciiDigit
  if ds3 = [] then none else
  some (r4.dropWhile isAsciiDigit)

/-- Embedding of `© \d{4}` at one position. -/
def matchCopyright (cs : List Char) : Option (List Char) := do
  let r1 ← matchLit "© ".data cs
  let ds := r1.take 4
  if ds.length = 4 ∧ ds.all isAsciiDigit then some (r1.drop 4) else none

/-- Embedding of `\[.*?\]`: `[`, then the lazy shortest run of non-newline
characters up to the first `]`. -/
def matchBracketed (cs : List Char) : Option (List Char) :=
  match cs with
  | '[' :: rest =>
    let inner := rest.takeWhile (fun c => c ≠ ']' ∧ c ≠ '\n')
    let r := rest.dropWhile (fun c => c ≠ ']' ∧ c ≠ '\n')
    match r with
    | ']' :: r2 => if inner.all (fun c => c ≠ '\n') then some r2 else none
    | _ => none
  | _ => none

/-- Embedding of `\(Page \d+\)` (IGNORECASE) at one position. -/
def matchParenPage (cs : List Char) : Option (List Char) := do
  let r1 ← matchLitCI "(page ".data cs
  let ds := r1.takeWhile isAsciiDigit
  let r2 := r1.dropWhile isAsciiDigit
  if ds = [] then none else
  matchLit ")".data r2

/-- A lazy `.*?` bridge: consume the shortest (possibly empty) run of
non-newline characters after which `stop` matches, returning the
remainder after `stop`. -/
def lazyUntil (stop : List Char → Option (List Char)) :
    List Char → Option (List Char)
  | [] => stop []
  | c :: cs =>
    match stop (c :: cs) with
    | some r => some r
    | none => if c = '\n' then none else lazyUntil stop cs

/-- Embedding of `EXAMINATION.*?\d{4}` (IGNORECASE) at one position. -/
def matchExamYear (cs : List Char) : Option (List Char) := do
  let r1 ← matchLitCI "examination".data cs
  lazyUntil (fun r =>
    if (r.take 4).length = 4 ∧ (r.take 4).all isAsciiDigit then
      some (r.drop 4)
    else none) r1

/-- Embedding of `KINGSTON.*?ONTARIO` (IGNORECASE) at one position. -/
def matchKingston (cs : List Char) : Option (List Char) := do
  let r1 ← matchLitCI "kingston".data cs
  lazyUntil (matchLitCI "ontario".data) r1

/-- Embedding of `COURSE.*?CODE` (IGNORECASE) at one position. -/
def matchCourseCode (cs : List Char) : Option (List Char) := do
  let r1 ← matchLitCI "course".data cs
  lazyUntil (matchLitCI "code".data) r1

/-- Embedding of `INSTRUCTOR.*?:` (IGNORECASE) at one position. -/
def matchInstructor (cs : List Char) : Option (List Char) := do
  let r1 ← matchLitCI "instructor".data cs
  lazyUntil (matchLit ":".data) r1

/-- Embedding of `QUEEN\'?S UNIVERSITY` (IGNORECASE) at one position. -/
def matchQueens (cs : List Char) : Option (List Char) := do
  let r1 ← matchLitCI "queen".data cs
  let r2 := match r1 with
    | '\x27' :: r => r
    | r => r
  matchLitCI "s university".data r2

/-- Embedding of `https?://\S+` at one position. -/
def matchUrl (cs : List Char) : Option (List Char) := do
  let r1 ← matchLit "http".data cs
  let r2 := match r1 with
    | 's' :: r => r
    | r => r
  let r3 ← matchLit "://".data r2
  let run := r3.takeWhile (fun c => ¬ isPyWS c)
  if run = [] then none else some (r3.dropWhile (fun c => ¬ isPyWS c))

/-- Embedding of `\S+@\S+` at one position: the maximal non-whitespace run from here
matches iff it has an `@` at an interior index (first `\S+` greedy,
backtracking to the last usable `@`). -/
def matchEmail (cs : List Char) : Option (List Char) :=
  let run := cs.takeWhile (fun c => ¬ isPyWS c)
  if ((run.drop 1).dropLast).any (fun c => c = '@') then
    some (cs.dropWhile (fun c => ¬ isPyWS c))
  else none

/-- Case-insensitive literal pattern as a position matcher. -/
def litPatCI (s : String) (cs : List Char) : Option (List Char) :=
  matchLitCI s.data cs

/-- The `noise_patterns` list of `ExamDataCleaner.__init__`, in order. -/
def noisePatternList : List (List Char → Option (List Char)) :=
  [matchPageOf, matchDateSlash, matchCopyright, litPatCI "confidential",
   litPatCI "do not write", litPatCI "turn over", litPatCI "see next page",
   litPatCI "continued...", matchBracketed, matchParenPage]

/-- The `header_footer_patterns` list, in order. -/
def headerFooterPatternList : List (List Char → Option (List Char)) :=
  [matchQueens, matchKingston, matchExamYear, matchCourseCode,
   matchInstructor]

/-- The printable-character filter
`[^\x09\x0A\x0D\x20-\x7E -￿]` → space. -/
def keepPrintable (c : Char) : Char :=
  if c = '\t' ∨ c = '\n' ∨ c = '\r' ∨
     ('\x20' ≤ c ∧ c ≤ '\x7e') ∨ (0xA0 ≤ c.toNat ∧ c.toNat ≤ 0xFFFF) then c
  else ' '

/-- Embedding of `re.sub(r'-\s*\n', '', text)`: a hyphen whose following whitespace
run contains a newline is deleted up to the last newline of that run
(greedy `\s*` backtracking to the final `\n`). -/
def matchHyphenBreak (cs : List Char) : Option (List Char) :=
  match cs with
  | '-' :: rest =>
    let run := rest.takeWhile isPyWS
    if run.any (fun c => c = '\n') then
      let keepFrom := (run.reverse.takeWhile (fun c => c ≠ '\n')).length
      some (run.reverse.take keepFrom).reverse >>= fun kept =>
        some (kept ++ rest.dropWhile isPyWS)
    else none
  | _ => none

/-- Embedding of `re.sub(r'\s+', ' ', text)` (fuel-structural, fuel
`text.length + 1` as for `reSubDelete`). -/
def collapseWSF : Nat → List Char → List Char
  | 0, cs => cs
  | _ + 1, [] => []
  | fuel + 1, c :: cs =>
    if isPyWS c then ' ' :: collapseWSF fuel (cs.dropWhile isPyWS)
    else c :: collapseWSF fuel cs

def collapseWS (cs : List Char) : List Char :=
  collapseWSF (cs.length + 1) cs

/-- Embedding of `ExamDataCleaner.clean_text`. -/
def cleanTextBasic (text : String) : String :=
  if text = "" then "" else
  let cs := text.data.map keepPrintable
  let cs := reSubDelete matchHyphenBreak cs
  let cs := collapseWS cs
  let cs := pyStrip cs
  let deleted : List Char :=
    ['﻿', '​', '‌', '‍', '‪', '‫', '‬',
     '‭', '‮']
  let cs := cs.filter (fun c => ¬ deleted.contains c)
  let cs := cs.map (fun c =>
    if c = '‘' ∨ c = '’' then '\x27'
    else if c = '“' ∨ c = '”' then '"'
    else if c = '—' ∨ c = '–' then '-'
    else c)
  String.mk cs

/-- Embedding of `ExamDataCleaner.remove_noise`: delete every noise and
header/footer pattern, URLs and e-mail addresses, then `clean_text`. -/
def removeNoise (text : String) : String :=
  let cs := noisePatternList.foldl (fun t p => reSubDelete p t) text.data
  let cs := headerFooterPatternList.foldl (fun t p => reSubDelete p t) cs
  let cs := reSubDelete matchUrl cs
  let cs := reSubDelete matchEmail cs
  cleanTextBasic (String.mk cs)

def isAsciiLetter (c : Char) : Bool :=
  ('a' ≤ c && c ≤ 'z') || ('A' ≤ c && c ≤ 'Z')

/-- The body of `ExamDataCleaner.validate_question`, which reads only
the `text` field (`min_question_length` at its default 20; `isalpha`
restricted to ASCII). -/
def validQuestionText (text : String) : Bool :=
  let cs := text.data
  if cs.length < 20 then false
  else if (pyStrip cs).length < 20 then false
  else
    let letters := (cs.filter isAsciiLetter).length
    if ((letters : ℚ) / (cs.length : ℚ)) < 15 / 100 then false
    else if ¬ cs.any (fun c => isAsciiLetter c || isAsciiDigit c) then false
    else
      let tl := pyStrip (cs.map pyLower)
      let fullPageNum : Bool :=
        match matchLit "page ".data tl with
        | some r => (¬ r.isEmpty) && r.all isAsciiDigit
        | none => false
      let prefixes : List String :=
        ["answer key", "table of contents", "instructions:",
         "exam duration:", "total marks:"]
      if fullPageNum || prefixes.any (fun p => (matchLit p.data tl).isSome) then
        false
      else true

/-- Embedding of `ExamDataCleaner.validate_question`. -/
def validateQuestion (q : Qd) : Bool :=
  validQuestionText q.text

/-- Embedding of `re.finditer` for a never-empty position matcher: the list of
`(start, end)` spans of the non-overlapping leftmost matches
(fuel-structural, fuel `text.length + 1` supplied by `finditer`). -/
def finditerF (m : List Char → Option (List Char)) :
    Nat → List Char → Nat → List (Nat × Nat)
  | 0, _, _ => []
  | _ + 1, [], _ => []
  | fuel + 1, c :: cs, i =>
    match m (c :: cs) with
    | some rest =>
      if rest.length < cs.length + 1 then
        (i, i + (cs.length + 1 - rest.length)) ::
          finditerF m fuel rest (i + (cs.length + 1 - rest.length))
      else (i, i + 1) :: finditerF m fuel cs (i + 1)
    | none => finditerF m fuel cs (i + 1)

def finditer (m : List Char → Option (List Char)) (cs : List Char) (i : Nat) :
    List (Nat × Nat) :=
  finditerF m (cs.length + 1) cs i

def isOptionLetter (c : Char) : Bool := 'A' ≤ c && c ≤ 'D'

def isWordChar (c : Char) : Bool :=
  isAsciiLetter c || isAsciiDigit c || c = '_'

/-- Embedding of `([A-D]\)[^\w])` at one position. -/
def matchOptParenNonWord (cs : List Char) : Option (List Char) :=
  match cs with
  | a :: ')' :: c :: rest =>
    if isOptionLetter a ∧ ¬ isWordChar c then some rest else none
  | _ => none

/-- Embedding of `\(([A-D])\)` at one position. -/
def matchOptParens (cs : List Char) : Option (List Char) :=
  match cs with
  | '(' :: a :: ')' :: rest =>
    if isOptionLetter a then some rest else none
  | _ => none

/-- Embedding of `([A-D]\.\s)` at one position. -/
def matchOptDot (cs : List Char) : Option (List Char) :=
  match cs with
  | a :: '.' :: c :: rest =>
    if isOptionLetter a ∧ isPyWS c then some rest else none
  | _ => none

/-- Embedding of `([A-D]\s+[A-Z])` at one position. -/
def matchOptSpaceUpper (cs : List Char) : Option (List Char) :=
  match cs with
  | a :: rest =>
    if isOptionLetter a then
      let ws := rest.takeWhile isPyWS
      let r := rest.dropWhile isPyWS
      if ws ≠ [] then
        match r with
        | c :: r2 => if OCRContextSelector.isAsciiUpper c then some r2 else none
        | [] => none
      else none
    else none
  | [] => none

def optionPatternList : List (List Char → Option (List Char)) :=
  [matchOptParenNonWord, matchOptParens, matchOptDot, matchOptSpaceUpper]

/-- The option-collection loop of `extract_multiple_choice_options`:
each match's end up to the next match's start (or end of text) is an
option candidate, stripped and `clean_text`ed, kept when at least three
characters long. -/
def collectOptions (cs : List Char) : List (Nat × Nat) → List String
  | [] => []
  | (_, e) :: rest =>
    let stop := match rest with
      | [] => cs.length
      | (s2, _) :: _ => s2
    let t := cleanTextBasic (String.mk (pyStrip (QuestionParser.sliceChars cs e stop)))
    let tail := collectOptions cs rest
    if t ≠ "" ∧ 3 ≤ t.length then t :: tail else tail

/-- Embedding of `ExamDataCleaner.extract_multiple_choice_options`. -/
def extractMCOptions (text : String) : String × List String :=
  let cs := text.data
  match (optionPatternList.map (fun p => finditer p cs 0)).find?
      (fun ms => 2 ≤ ms.length) with
  | some ms =>
    match ms with
    | (s, _) :: _ =>
      (String.mk (pyStrip (cs.take s)), collectOptions cs ms)
    | [] => (text, [])
  | none => (text, [])

/-- Embedding of `ExamDataCleaner.clean_question_structure`. -/
def cleanQuestionStructure (q : Qd) : Qd :=
  let text := removeNoise q.text
  let qtype := q.question_type.getD "other"
  let base : Qd :=
    { id := some (q.question_number.getD 0),
      text := text,
      question_type := some qtype,
      original_length := some q.text.length,
      cleaned_length := some text.length,
      topics := q.topics,
      difficulty_score := q.difficulty_score,
      is_sub_question := q.is_sub_question,
      parent_question_number := q.parent_question_number }
  if qtype = "multiple_choice" then
    let qo := extractMCOptions text
    { base with text := qo.1, options := some qo.2,
                num_options := some qo.2.length }
  else base

/-- Embedding of `text.lower().strip()`, the normalization used by both
deduplication tiers. -/
def normText (s : String) : List Char := pyStrip (s.data.map pyLower)

/-- The loop of `remove_duplicates`.  `seen` is the set of md5 hashes
of accepted normalized texts; md5 is modelled as injective, so the set
holds the normalized texts themselves. -/
def removeDupGo (thr : ℚ) : List Qd → List Qd → List (List Char) → List Qd
  | [], acc, _ => acc
  | q :: rest, acc, seen =>
    let txt := normText q.text
    if txt ∈ seen then removeDupGo thr rest acc seen
    else if acc.any (fun e =>
        thr ≤ Difflib.similarityScore txt (normText e.text)) then
      removeDupGo thr rest acc seen
    else removeDupGo thr rest (acc ++ [q]) (txt :: seen)

/-- Embedding of `ExamDataCleaner.remove_duplicates` (default threshold 0.85). -/
def removeDuplicates (questions : List Qd) (thr : ℚ) : List Qd :=
  removeDupGo thr questions [] []

/-- Embedding of `ExamDataCleaner.clean_dataset`: per-question structural cleaning,
validation, then duplicate removal at the default 0.85 threshold. -/
def cleanDataset (questionsData : List Qd) : List Qd :=
  removeDuplicates ((questionsData.map cleanQuestionStructure).filter
    validateQuestion) (85 / 100)

end ExamDataCleaner

/-! ### Concrete pipeline inputs used by witnesses and counterexamples -/

/-- A question whose bracketed noise hides a `Page n of n` pattern: the
first cleaning pass removes `[]` and thereby *creates* a noise match
that only the second pass can see. -/
def noisyQuestion : Qd :=
  { text := "Pa[]ge 10 of 10 explain. why? ok", question_number := some 1 }

/-- First of three questions exhibiting a similarity chain. -/
def dupFirst : Qd :=
  { text := "0123456789abcdefghijklmnopqrstuvwxyzABAB", question_number := some 1 }

/-- Second question: similarity 0.9 with `dupFirst`. -/
def dupSecond : Qd :=
  { text := "0123456789abcdefghijklmnopqrstuvwxyzCDCD", question_number := some 2 }

/-- Third question: similarity 0.9 with `dupSecond` but only 0.8 with
`dupFirst`. -/
def dupThird : Qd :=
  { text := "0123456789abcdefghijklmnopqrstuvCDCDCDCD", question_number := some 3 }

/-- A question list that cleans to a fixed point of the cleaner. -/
def stableQuestion : Qd :=
  { text := "What is the elasticity of demand? Explain carefully.",
    question_number := some 1 }


/-- The fields `detect_sub_questions` never writes: everything except
`question_type`, `is_sub_question` and `parent_question_number`. -/
def preservedByDetect (o q : Qd) : Prop :=
  o.text = q.text ∧ o.question_number = q.question_number ∧
  o.qlength = q.qlength ∧ o.question_marks = q.question_marks ∧
  o.topics = q.topics ∧ o.difficulty_score = q.difficulty_score ∧
  o.id = q.id ∧ o.original_length = q.original_length ∧
  o.cleaned_length = q.cleaned_length ∧ o.options = q.options ∧
  o.num_options = q.num_options

/-- The fields `process_exam_questions` never writes: everything except
`question_marks` and `difficulty_score`. -/
def preservedByScoring (o q : Qd) : Prop :=
  o.text = q.text ∧ o.question_number = q.question_number ∧
  o.question_type = q.question_type ∧ o.qlength = q.qlength ∧
  o.topics = q.topics ∧ o.is_sub_question = q.is_sub_question ∧
  o.parent_question_number = q.parent_question_number ∧
  o.id = q.id ∧ o.original_length = q.original_length ∧
  o.cleaned_length = q.cleaned_length ∧ o.options = q.options ∧
  o.num_options = q.num_options

/-- A main question followed by a lettered part (witness input). -/
def subqMainExample : Qd :=
  { text := "1. Define GDP and explain its use.", question_number := some 1 }

def subqChildExample : Qd :=
  { text := "a) part one of the question", question_number := some 2 }


/-- A document with two numbered main questions (witness input). -/
def numberedDoc : String :=
  "1. What is GDP and why does it matter a lot?\n2. Define elasticity of demand and give one example now."


/-- Two questions that the deduplicator may both retain: distinct
normalized texts and similarity below the threshold (computed, as in
the source, with the later question as the first `SequenceMatcher`
argument). -/
def dupDistinct (thr : ℚ) (a b : Qd) : Prop :=
  ExamDataCleaner.normText a.text ≠ ExamDataCleaner.normText b.text ∧
  Difflib.similarityScore (ExamDataCleaner.normText b.text)
    (ExamDataCleaner.normText a.text) < thr

/-! ## Theorems -/

/-! ### Helper lemmas: difficulty calculator -/

theorem sumMarksLoop_true (qs : List Qd) (total : ℚ) :
    DifficultyCalculator.sumMarksLoop qs total true =
      some (total + (qs.filterMap
        (fun q => DifficultyCalculator.extractQuestionMarks q.text)).sum) := by
  induction qs generalizing total with
  | nil => simp [DifficultyCalculator.sumMarksLoop]
  | cons q rest ih =>
    cases h : DifficultyCalculator.extractQuestionMarks q.text with
    | none =>
      simp [DifficultyCalculator.sumMarksLoop, h, ih]
    | some m =>
      simp [DifficultyCalculator.sumMarksLoop, h, ih]
      ring

theorem sumMarksLoop_spec (qs : List Qd) :
    DifficultyCalculator.sumMarksLoop qs 0 false =
      DifficultyCalculator.summedFallbackSpec qs := by
  induction qs with
  | nil => simp [DifficultyCalculator.sumMarksLoop,
      DifficultyCalculator.summedFallbackSpec]
  | cons q rest ih =>
    cases h : DifficultyCalculator.extractQuestionMarks q.text with
    | none =>
      simp [DifficultyCalculator.sumMarksLoop, h, ih,
        DifficultyCalculator.summedFallbackSpec]
    | some m =>
      simp [DifficultyCalculator.sumMarksLoop, h,
        DifficultyCalculator.summedFallbackSpec, sumMarksLoop_true]

theorem calcDiff_none_right (m : Option ℚ) :
    DifficultyCalculator.calculateDifficultyScore m none = none := by
  cases m <;> rfl

/-! ### C2 -/

/-- C2: `calculate_difficulty_score` returns `null` whenever either
input is `null`; whenever both are non-null and the total is positive
it returns `question_marks / total_exam_marks` clamped into `[0,1]`
(so in particular the returned score lies in `[0,1]`). -/
theorem calculate_difficulty_score_spec (qm tm : Option ℚ) :
    ((qm = none ∨ tm = none) →
       DifficultyCalculator.calculateDifficultyScore qm tm = none) ∧
    (∀ a t, qm = some a → tm = some t → 0 < t →
       DifficultyCalculator.calculateDifficultyScore qm tm =
         some (max 0 (min 1 (a / t))) ∧
       0 ≤ max 0 (min 1 (a / t)) ∧ max 0 (min 1 (a / t)) ≤ 1) := by
  constructor
  · rintro (rfl | rfl)
    · rfl
    · exact calcDiff_none_right qm
  · rintro a t rfl rfl ht
    refine ⟨?_, le_max_left 0 _, ?_⟩
    · simp [DifficultyCalculator.calculateDifficultyScore, not_le.mpr ht]
    · exact max_le (by norm_num) (min_le_left 1 _)

/-- Witness for C2 at the spec scenario `10 / 120`. -/
theorem calculate_difficulty_score_spec_witness :
    DifficultyCalculator.calculateDifficultyScore (some 10) (some 120) =
      some (max 0 (min 1 ((10 : ℚ) / 120))) :=
  ((calculate_difficulty_score_spec (some 10) (some 120)).2 10 120 rfl rfl
    (by norm_num)).1

/-! ### C3 -/

/-- C3 counterexample: with a cover total of 500 — present but outside
[10,300] — `calculate_total_exam_marks` falls back to summing the
per-question marks (returning 10 here), so the fallback is *not*
reserved for an absent cover value as the claim states. -/
theorem calculate_total_cover_out_of_range_counterexample :
    DifficultyCalculator.calculateTotalExamMarks
        [{ text := "(10 pts) Explain the supply model." }]
        (some { total_marks_from_cover := some 500 }) = some 10 ∧
    DifficultyCalculator.summedFallbackSpec
        [{ text := "(10 pts) Explain the supply model." }] = some 10 ∧
    (10 : ℚ) ≠ 500 := by
  have he : DifficultyCalculator.tryMarkPatterns
      DifficultyCalculator.markPatternList
      "(10 pts) Explain the supply model.".data = some 10 := by decide
  have hx : DifficultyCalculator.extractQuestionMarks
      "(10 pts) Explain the supply model." = some 10 := by
    simp [DifficultyCalculator.extractQuestionMarks, he]
  refine ⟨?_, ?_, by norm_num⟩
  · norm_num [DifficultyCalculator.calculateTotalExamMarks,
      DifficultyCalculator.sumMarksLoop, hx]
  · simp [DifficultyCalculator.summedFallbackSpec, hx]

/-- C3 amended: the cover value (validated to [10,300], with a zero
value falsy) takes priority regardless of the per-question marks; the
fallback to summing extracted marks happens when the cover total is
absent *or out of range*, and yields `null` when no question yields
marks. -/
theorem calculate_total_exam_marks_amended (qs : List Qd)
    (ed : DifficultyCalculator.ExamData) :
    (∀ c, ed.total_marks_from_cover = some c → 10 ≤ c → c ≤ 300 →
       DifficultyCalculator.calculateTotalExamMarks qs (some ed) = some c) ∧
    (∀ c, ed.total_marks_from_cover = some c → ¬ (10 ≤ c ∧ c ≤ 300) →
       DifficultyCalculator.calculateTotalExamMarks qs (some ed) =
         DifficultyCalculator.summedFallbackSpec qs) ∧
    (ed.total_marks_from_cover = none →
       DifficultyCalculator.calculateTotalExamMarks qs (some ed) =
         DifficultyCalculator.summedFallbackSpec qs) ∧
    DifficultyCalculator.calculateTotalExamMarks qs none =
      DifficultyCalculator.summedFallbackSpec qs := by
  refine ⟨?_, ?_, ?_, ?_⟩
  · rintro c hc h10 h300
    have hne : c ≠ 0 := by intro h; rw [h] at h10; norm_num at h10
    simp [DifficultyCalculator.calculateTotalExamMarks, hc, hne, h10, h300]
  · rintro c hc hrange
    by_cases hne : c = 0
    · simp [DifficultyCalculator.calculateTotalExamMarks, hc, hne,
        sumMarksLoop_spec]
    · simp [DifficultyCalculator.calculateTotalExamMarks, hc, hne, hrange,
        sumMarksLoop_spec]
  · intro hc
    simp [DifficultyCalculator.calculateTotalExamMarks, hc, sumMarksLoop_spec]
  · simp [DifficultyCalculator.calculateTotalExamMarks, sumMarksLoop_spec]

/-- Witness for C3 (amended) at concrete inputs: a cover total of 120
beats a question worth 10 marks, and an absent cover falls back to the
sum. -/
theorem calculate_total_exam_marks_amended_witness :
    DifficultyCalculator.calculateTotalExamMarks
        [{ text := "(10 pts) Explain the supply model." }]
        (some { total_marks_from_cover := some 120 }) = some 120 ∧
    DifficultyCalculator.calculateTotalExamMarks
        [{ text := "(10 pts) Explain the supply model." }]
        (some { total_marks_from_cover := none }) =
      DifficultyCalculator.summedFallbackSpec
        [{ text := "(10 pts) Explain the supply model." }] :=
  ⟨(calculate_total_exam_marks_amended
      [{ text := "(10 pts) Explain the supply model." }]
      { total_marks_from_cover := some 120 }).1 120 rfl (by norm_num)
      (by norm_num),
   (calculate_total_exam_marks_amended
      [{ text := "(10 pts) Explain the supply model." }]
      { total_marks_from_cover := none }).2.2.1 rfl⟩

/-! ### C4 -/

/-- C4: whenever the chosen total exam marks exceeds 300,
`process_exam_questions` records `null` in the stats and gives every
question in the output `difficulty_score = null`. -/
theorem process_exam_questions_discards_total_above_300
    (qs : List Qd) (ed : Option DifficultyCalculator.ExamData) (t : ℚ)
    (hcalc : DifficultyCalculator.calculateTotalExamMarks qs ed = some t)
    (hbig : 300 < t) :
    (DifficultyCalculator.processExamQuestions qs ed).2.total_exam_marks =
      none ∧
    ∀ q ∈ (DifficultyCalculator.processExamQuestions qs ed).1,
      q.difficulty_score = none := by
  constructor
  · simp [DifficultyCalculator.processExamQuestions, hcalc, hbig]
  · intro q hq
    simp only [DifficultyCalculator.processExamQuestions, hcalc, if_pos hbig,
      List.mem_map] at hq
    obtain ⟨p, _, rfl⟩ := hq
    simp [calcDiff_none_right]

/-- Witness for C4: two 200-mark questions sum to 400 > 300, the stats
record `null` and both output questions carry a `null` difficulty. -/
theorem process_exam_questions_discards_total_above_300_witness :
    DifficultyCalculator.calculateTotalExamMarks
        [{ text := "(200 pts) Part A." }, { text := "(200 pts) Part B." }]
        none = some 400 ∧
    (DifficultyCalculator.processExamQuestions
        [{ text := "(200 pts) Part A." }, { text := "(200 pts) Part B." }]
        none).2.total_exam_marks = none ∧
    ∀ q ∈ (DifficultyCalculator.processExamQuestions
        [{ text := "(200 pts) Part A." }, { text := "(200 pts) Part B." }]
        none).1, q.difficulty_score = none := by
  have ha : DifficultyCalculator.tryMarkPatterns
      DifficultyCalculator.markPatternList "(200 pts) Part A.".data =
        some 200 := by decide
  have hb : DifficultyCalculator.tryMarkPatterns
      DifficultyCalculator.markPatternList "(200 pts) Part B.".data =
        some 200 := by decide
  have hxa : DifficultyCalculator.extractQuestionMarks "(200 pts) Part A." =
      some 200 := by simp [DifficultyCalculator.extractQuestionMarks, ha]
  have hxb : DifficultyCalculator.extractQuestionMarks "(200 pts) Part B." =
      some 200 := by simp [DifficultyCalculator.extractQuestionMarks, hb]
  have hc : DifficultyCalculator.calculateTotalExamMarks
      [{ text := "(200 pts) Part A." }, { text := "(200 pts) Part B." }]
      none = some 400 := by
    norm_num [DifficultyCalculator.calculateTotalExamMarks,
      DifficultyCalculator.sumMarksLoop, hxa, hxb]
  refine ⟨hc, ?_, ?_⟩
  · exact (process_exam_questions_discards_total_above_300 _ _ 400 hc
      (by norm_num)).1
  · exact (process_exam_questions_discards_total_above_300 _ _ 400 hc
      (by norm_num)).2

/-! ### C7 -/

/-- C7: when the (upper-cased) course code's leading 2–4-letter prefix
is in the language-course table, `detect_exam_type` returns that
language's configuration — `exam_type = "language"` with the table's
OCR code — and the result is identical for every `first_page_text`
(the free-text keyword scan is never consulted). -/
theorem detect_exam_type_language_priority
    (code pfx : String) (entry : String × OCRContextSelector.LangInfo)
    (t1 t2 : Option String)
    (h1 : OCRContextSelector.coursePrefixMatch
        (String.mk (code.data.map pyUpper)) = some pfx)
    (h2 : (OCRContextSelector.languageCourses.filter
        (fun p => p.1 = pfx)).head? = some entry) :
    OCRContextSelector.detectExamType (some code) t1 =
      { ocr_language := entry.2.lang, exam_type := "language",
        needs_math_ocr := false,
        detected_language := some entry.2.language_name,
        ocr_config := "--psm 6", recommended_ocr_method := "tesseract",
        needs_translation := some entry.2.needs_translation } ∧
    OCRContextSelector.detectExamType (some code) t1 =
      OCRContextSelector.detectExamType (some code) t2 := by
  have hcode : code ≠ "" := by
    intro h
    subst h
    simp [OCRContextSelector.coursePrefixMatch] at h1
  refine ⟨?_, ?_⟩ <;>
    simp [OCRContextSelector.detectExamType, hcode, h1, h2]

/-- Witness for C7: `ARAB101` returns the Arabic configuration even
when the first page is full of math keywords, and the text argument is
irrelevant. -/
theorem detect_exam_type_language_priority_witness :
    OCRContextSelector.detectExamType (some "ARAB101")
        (some "solve for x the equation") =
      { ocr_language := "ara+eng", exam_type := "language",
        needs_math_ocr := false, detected_language := some "Arabic",
        ocr_config := "--psm 6", recommended_ocr_method := "tesseract",
        needs_translation := some false } ∧
    OCRContextSelector.detectExamType (some "ARAB101")
        (some "solve for x the equation") =
      OCRContextSelector.detectExamType (some "ARAB101") none :=
  detect_exam_type_language_priority "ARAB101" "ARAB"
    ("ARAB", { lang := "ara+eng", language_name := "Arabic",
               needs_translation := false })
    (some "solve for x the equation") none (by decide) (by decide)

/-! ### C5 -/

/-- C5: when the PDF reports itself as password-protected (pdfplumber
opens it and its metadata carries the encrypted flag),
`extract_text_from_pdf` returns the encrypted failure immediately: the
result is the fixed `encryptedResult` record — `success = false` with
the encrypted error — independent of every other component of the file
(the second text-layer engine and OCR are never consulted). -/
theorem extract_encrypted_fails_immediately
    (f : TextExtractor.PdfFile) (lang cc : Option String)
    (pages : List String)
    (hex : f.fileExists = true)
    (henc : f.plumber = TextExtractor.LibOutcome.opens true pages) :
    TextExtractor.extractTextFromPdf f false lang cc =
      TextExtractor.encryptedResult := by
  simp [TextExtractor.extractTextFromPdf, TextExtractor.plumberBranch,
    hex, henc, TextExtractor.encryptedResult]

/-- Witness for C5: a file whose pdfplumber view is encrypted fails
with the encrypted error even though PyMuPDF could read it and OCR
would produce text. -/
theorem extract_encrypted_fails_immediately_witness :
    TextExtractor.extractTextFromPdf
      { fileExists := true,
        plumber := TextExtractor.LibOutcome.opens true ["secret page"],
        mupdf := TextExtractor.LibOutcome.opens false ["readable text"],
        pdf2imageAvailable := true, pytesseractAvailable := true,
        poppler := none, ocr := TextExtractor.OcrOutcome.pages ["ocr text"],
        firstPageText := some "COURSE: ECON 101",
        coverCourseCode := some "ECON101" }
      false none none = TextExtractor.encryptedResult :=
  extract_encrypted_fails_immediately _ none none ["secret page"] rfl rfl

/-! ### Helper lemmas: sub-question detector -/

theorem detectStep_preserved (q : Qd) (prev : Option Qd) :
    preservedByDetect (SubQuestionDetector.detectStep q prev) q := by
  rcases prev with _ | p <;>
    simp only [SubQuestionDetector.detectStep] <;>
    split_ifs <;>
    simp [preservedByDetect]

theorem detectLoop_forall₂ (prev : Option Qd) (qs : List Qd) :
    List.Forall₂ preservedByDetect
      (SubQuestionDetector.detectLoop prev qs) qs := by
  induction qs generalizing prev with
  | nil => exact List.Forall₂.nil
  | cons q rest ih =>
    exact List.Forall₂.cons (detectStep_preserved q prev) (ih (some q))

theorem detectLoop_length (prev : Option Qd) (qs : List Qd) :
    (SubQuestionDetector.detectLoop prev qs).length = qs.length :=
  (detectLoop_forall₂ prev qs).length_eq

theorem detectLoop_getD (prev : Option Qd) (qs : List Qd) (i : Nat)
    (h : i < qs.length) :
    (SubQuestionDetector.detectLoop prev qs).getD i {} =
      SubQuestionDetector.detectStep (qs.getD i {})
        (if i = 0 then prev else some (qs.getD (i - 1) {})) := by
  induction qs generalizing prev i with
  | nil => simp at h
  | cons q rest ih =>
    match i with
    | 0 => simp [SubQuestionDetector.detectLoop]
    | Nat.succ k =>
      have hk : k < rest.length := by simpa using h
      simp only [SubQuestionDetector.detectLoop, List.getD_cons_succ]
      rw [ih (some q) k hk]
      match k with
      | 0 => simp
      | Nat.succ j => simp

theorem detectStep_none (q : Qd) :
    SubQuestionDetector.detectStep q none = q := by
  simp [SubQuestionDetector.detectStep]

theorem detectStep_marked (q p : Qd)
    (hq : q.is_sub_question = false)
    (hp1 : p.question_type ≠ some "sub_question")
    (hp2 : p.is_sub_question = false)
    (hmark : (SubQuestionDetector.detectStep q (some p)).is_sub_question =
      true) :
    (SubQuestionDetector.detectStep q (some p)).parent_question_number =
      p.question_number := by
  by_cases h1 : SubQuestionDetector.isSubQuestionMarker q.text
  · by_cases h2 : SubQuestionDetector.isMainQuestion p.text
    · simp [SubQuestionDetector.detectStep, h1, h2]
    · have h3 : ¬ (p.question_type = some "sub_question" ∨
          p.is_sub_question = true) := by
        rintro (h | h)
        · exact hp1 h
        · rw [hp2] at h; exact Bool.noConfusion h
      simp only [SubQuestionDetector.detectStep, h1, if_true, h2,
        if_false] at hmark
      rw [if_neg h3] at hmark
      simp [hq] at hmark
  · simp only [SubQuestionDetector.detectStep, if_neg h1] at hmark
    simp [hq] at hmark

theorem getD_mem_of_lt (l : List Qd) (i : Nat) (h : i < l.length) :
    l.getD i {} ∈ l := by
  rw [List.getD_eq_get l {} h]
  exact List.get_mem l i h

/-! ### C1 -/

/-- C1: on pipeline inputs (no unit pre-flagged as sub-question, every
unit numbered), every unit that `detect_sub_questions` marks as a
sub-question sits at a positive index, carries a non-null
`parent_question_number`, and that parent number is exactly the
`question_number` of the unit at the strictly earlier position `i - 1`;
in particular the first unit of a document is never marked. -/
theorem detect_sub_questions_parent_invariant (qs : List Qd)
    (hclean : SubQuestionDetector.pipelineInput qs) :
    (∀ i, i < qs.length →
      ((SubQuestionDetector.detectSubQuestions qs).getD i
          {}).is_sub_question = true →
      0 < i ∧
      ((SubQuestionDetector.detectSubQuestions qs).getD i
          {}).parent_question_number ≠ none ∧
      ((SubQuestionDetector.detectSubQuestions qs).getD i
          {}).parent_question_number =
        ((SubQuestionDetector.detectSubQuestions qs).getD (i - 1)
          {}).question_number) ∧
    (qs ≠ [] →
      ((SubQuestionDetector.detectSubQuestions qs).getD 0
          {}).is_sub_question = false) := by
  have hfirst : qs ≠ [] →
      ((SubQuestionDetector.detectSubQuestions qs).getD 0
        {}).is_sub_question = false := by
    intro hne
    have h0 : 0 < qs.length := List.length_pos.mpr hne
    rw [SubQuestionDetector.detectSubQuestions, detectLoop_getD none qs 0 h0]
    simpa [detectStep_none] using (hclean _ (getD_mem_of_lt qs 0 h0)).1
  refine ⟨?_, hfirst⟩
  intro i hi hmark
  match i with
  | 0 =>
    have hne : qs ≠ [] := by
      intro h; rw [h] at hi; simp at hi
    rw [hfirst hne] at hmark
    exact Bool.noConfusion hmark
  | Nat.succ k =>
    have hk : k < qs.length := Nat.lt_of_succ_lt hi
    have hq := hclean _ (getD_mem_of_lt qs (k + 1) hi)
    have hp := hclean _ (getD_mem_of_lt qs k hk)
    rw [SubQuestionDetector.detectSubQuestions,
      detectLoop_getD none qs (k + 1) hi] at hmark ⊢
    rw [if_neg (Nat.succ_ne_zero k)] at hmark ⊢
    simp only [Nat.add_sub_cancel, Nat.succ_sub_one] at hmark ⊢
    have hparent := detectStep_marked _ _ hq.1 hp.2.1 hp.1 hmark
    refine ⟨Nat.succ_pos k, ?_, ?_⟩
    · rw [hparent]; exact hp.2.2
    · rw [hparent, detectLoop_getD none qs k hk]
      have := detectStep_preserved (qs.getD k {})
        (if k = 0 then none else some (qs.getD (k - 1) {}))
      exact (this.2.1).symm

/-- Witness for C1: a numbered main question followed by an `a)` part;
the second unit is marked and its parent is the first unit's number. -/
theorem detect_sub_questions_parent_invariant_witness :
    0 < 1 ∧
    ((SubQuestionDetector.detectSubQuestions
        [subqMainExample, subqChildExample]).getD 1
        {}).parent_question_number ≠ none ∧
    ((SubQuestionDetector.detectSubQuestions
        [subqMainExample, subqChildExample]).getD 1
        {}).parent_question_number =
      ((SubQuestionDetector.detectSubQuestions
        [subqMainExample, subqChildExample]).getD 0 {}).question_number :=
  (detect_sub_questions_parent_invariant [subqMainExample, subqChildExample]
    (by decide)).1 1 (by decide) (by decide)

/-! ### C10 -/

theorem processExamQuestions_fst (qs : List Qd)
    (ed : Option DifficultyCalculator.ExamData) :
    (DifficultyCalculator.processExamQuestions qs ed).1 =
      (qs.zip (qs.map
        (fun q => DifficultyCalculator.extractQuestionMarks q.text))).map
        (fun p =>
          { p.1 with
              difficulty_score := DifficultyCalculator.calculateDifficultyScore
                p.2
                (match DifficultyCalculator.calculateTotalExamMarks qs ed with
                 | some t => if 300 < t then none else some t
                 | none => none),
              question_marks := p.2 }) := by
  rfl

theorem zip_map_self_forall₂ (qs : List Qd) (f : Qd → Option ℚ)
    (g : Qd × Option ℚ → Qd)
    (hg : ∀ q, preservedByScoring (g (q, f q)) q) :
    List.Forall₂ preservedByScoring ((qs.zip (qs.map f)).map g) qs := by
  induction qs with
  | nil => exact List.Forall₂.nil
  | cons q rest ih =>
    exact List.Forall₂.cons (hg q) ih

/-- C10: sub-question detection and difficulty scoring enrich in place:
each output list corresponds position by position to its input with the
text and every field outside the stage's own outputs unchanged —
detection touches only `question_type`, `is_sub_question`,
`parent_question_number`; scoring touches only `question_marks`,
`difficulty_score` — so lengths and order are preserved and no
question is dropped. -/
theorem enrichment_frame_preservation (qs : List Qd)
    (ed : Option DifficultyCalculator.ExamData) :
    List.Forall₂ preservedByDetect
      (SubQuestionDetector.detectSubQuestions qs) qs ∧
    List.Forall₂ preservedByScoring
      (DifficultyCalculator.processExamQuestions qs ed).1 qs ∧
    (SubQuestionDetector.detectSubQuestions qs).length = qs.length ∧
    (DifficultyCalculator.processExamQuestions qs ed).1.length = qs.length := by
  have h1 := detectLoop_forall₂ none qs
  have h2 : List.Forall₂ preservedByScoring
      (DifficultyCalculator.processExamQuestions qs ed).1 qs := by
    rw [processExamQuestions_fst]
    exact zip_map_self_forall₂ qs _ _ (fun q => by
      constructor <;> simp [preservedByScoring])
  exact ⟨h1, h2, h1.length_eq, h2.length_eq⟩

/-! ### C6 -/

/-- C6 counterexample: a document whose two questions are marked with
the `Question N` family.  The claimed segmentation (split on whichever
of the four families yields two matches) produces two units, but the
source's segmentation never consults the `Question N` family and falls
through to the paragraph fallback, producing a single unit. -/
theorem segmentation_families_counterexample :
    2 ≤ (QuestionParser.lineStartMatches QuestionParser.matchQuestionWordAt
      (QuestionParser.parserCleanText QuestionParser.questionWordDoc).data).length ∧
    QuestionParser.claimedSegmentation QuestionParser.questionWordDoc ≠
      QuestionParser.extractQuestionSplits QuestionParser.questionWordDoc ∧
    (QuestionParser.claimedSegmentation QuestionParser.questionWordDoc).length
      = 2 ∧
    (QuestionParser.extractQuestionSplits QuestionParser.questionWordDoc).length
      = 1 := by
  decide

theorem collectSpans_length_gt (cs : List Char) (ms : List (Nat × Int)) :
    ∀ s ∈ QuestionParser.collectSpans cs ms, 20 < s.text.length := by
  induction ms with
  | nil => intro s hs; simp [QuestionParser.collectSpans] at hs
  | cons m rest ih =>
    intro s hs
    obtain ⟨pos, n⟩ := m
    simp only [QuestionParser.collectSpans] at hs
    split_ifs at hs with hlen
    · rw [List.mem_cons] at hs
      rcases hs with hs | hs
      · subst hs
        simpa [String.length] using hlen
      · exact ih s hs
    · exact ih s hs

theorem paragraphSplits_props (t : String) :
    ∀ s ∈ QuestionParser.paragraphSplits t,
      50 < s.text.length ∧
      QuestionParser.questionKeywords.any (fun k =>
        OCRContextSelector.strContains
          (OCRContextSelector.strLower s.text) k) = true := by
  intro s hs
  simp only [QuestionParser.paragraphSplits, List.mem_filterMap] at hs
  obtain ⟨p, _, heq⟩ := hs
  split_ifs at heq with hcond
  cases heq
  exact ⟨hcond.1, hcond.2⟩

/-- C6 amended: segmentation splits only on the `\d+\.` family (at
least two line-start matches required) — the `Question N`, `Qn.`,
`\d+\)` families of `question_patterns` are never consulted — then
falls back to Roman-numeral markers (at least two matches), then to a
paragraph split that keeps only paragraphs longer than 50 characters
containing a question-like keyword; spans kept by the marker tiers are
longer than 20 characters after stripping. -/
theorem segmentation_cascade_amended (text : String) :
    (2 ≤ (QuestionParser.lineStartMatches QuestionParser.matchNumberedAt
        (QuestionParser.parserCleanText text).data).length →
      QuestionParser.extractQuestionSplits text =
        QuestionParser.collectSpans
          (QuestionParser.parserCleanText text).data
          (QuestionParser.lineStartMatches QuestionParser.matchNumberedAt
            (QuestionParser.parserCleanText text).data)) ∧
    ((QuestionParser.lineStartMatches QuestionParser.matchNumberedAt
        (QuestionParser.parserCleanText text).data).length < 2 →
      2 ≤ (QuestionParser.lineStartMatches QuestionParser.matchRomanAt
        (QuestionParser.parserCleanText text).data).length →
      QuestionParser.extractQuestionSplits text =
        QuestionParser.collectSpans
          (QuestionParser.parserCleanText text).data
          (QuestionParser.lineStartMatches QuestionParser.matchRomanAt
            (QuestionParser.parserCleanText text).data)) ∧
    ((QuestionParser.lineStartMatches QuestionParser.matchNumberedAt
        (QuestionParser.parserCleanText text).data).length < 2 →
      (QuestionParser.lineStartMatches QuestionParser.matchRomanAt
        (QuestionParser.parserCleanText text).data).length < 2 →
      QuestionParser.extractQuestionSplits text =
        QuestionParser.paragraphSplits (QuestionParser.parserCleanText text)) ∧
    (∀ s ∈ QuestionParser.extractQuestionSplits text,
      20 < s.text.length ∧
      ((QuestionParser.lineStartMatches QuestionParser.matchNumberedAt
          (QuestionParser.parserCleanText text).data).length < 2 →
       (QuestionParser.lineStartMatches QuestionParser.matchRomanAt
          (QuestionParser.parserCleanText text).data).length < 2 →
       50 < s.text.length ∧
       QuestionParser.questionKeywords.any (fun k =>
         OCRContextSelector.strContains
           (OCRContextSelector.strLower s.text) k) = true)) := by
  refine ⟨?_, ?_, ?_, ?_⟩
  · intro h
    simp only [QuestionParser.extractQuestionSplits]
    rw [if_pos h]
  · intro h1 h2
    simp only [QuestionParser.extractQuestionSplits]
    rw [if_neg (by omega), if_pos h2]
  · intro h1 h2
    simp only [QuestionParser.extractQuestionSplits]
    rw [if_neg (by omega), if_neg (by omega)]
  · intro s hs
    by_cases h1 : 2 ≤ (QuestionParser.lineStartMatches
        QuestionParser.matchNumberedAt
        (QuestionParser.parserCleanText text).data).length
    · rw [show QuestionParser.extractQuestionSplits text = _ from by
        simp only [QuestionParser.extractQuestionSplits]; rw [if_pos h1]] at hs
      exact ⟨collectSpans_length_gt _ _ s hs, fun hn _ => absurd h1 (by omega)⟩
    · by_cases h2 : 2 ≤ (QuestionParser.lineStartMatches
          QuestionParser.matchRomanAt
          (QuestionParser.parserCleanText text).data).length
      · rw [show QuestionParser.extractQuestionSplits text = _ from by
          simp only [QuestionParser.extractQuestionSplits]
          rw [if_neg h1, if_pos h2]] at hs
        exact ⟨collectSpans_length_gt _ _ s hs,
          fun _ hr => absurd h2 (by omega)⟩
      · rw [show QuestionParser.extractQuestionSplits text = _ from by
          simp only [QuestionParser.extractQuestionSplits]
          rw [if_neg h1, if_neg h2]] at hs
        have hp := paragraphSplits_props _ s hs
        exact ⟨by omega, fun _ _ => hp⟩

/-- Witness for C6 (amended) on a two-question numbered document. -/
theorem segmentation_cascade_amended_witness :
    QuestionParser.extractQuestionSplits numberedDoc =
      QuestionParser.collectSpans
        (QuestionParser.parserCleanText numberedDoc).data
        (QuestionParser.lineStartMatches QuestionParser.matchNumberedAt
          (QuestionParser.parserCleanText numberedDoc).data) :=
  (segmentation_cascade_amended numberedDoc).1 (by decide)

/-! ### Helper lemmas: deduplication loop -/

theorem removeDupGo_acc_mem (thr : ℚ) (pending acc : List Qd)
    (seen : List (List Char)) (x : Qd) (hx : x ∈ acc) :
    x ∈ ExamDataCleaner.removeDupGo thr pending acc seen := by
  induction pending generalizing acc seen with
  | nil => exact hx
  | cons q rest ih =>
    simp only [ExamDataCleaner.removeDupGo]
    split_ifs with h1 h2
    · exact ih acc seen hx
    · exact ih acc seen hx
    · exact ih (acc ++ [q]) _ (List.mem_append_left _ hx)

theorem removeDupGo_sublist (thr : ℚ) (pending acc : List Qd)
    (seen : List (List Char)) :
    (ExamDataCleaner.removeDupGo thr pending acc seen).Sublist
      (acc ++ pending) := by
  induction pending generalizing acc seen with
  | nil => simp [ExamDataCleaner.removeDupGo]
  | cons q rest ih =>
    simp only [ExamDataCleaner.removeDupGo]
    split_ifs with h1 h2
    · exact (ih acc seen).trans
        (List.Sublist.append_left (List.sublist_cons_self q rest) acc)
    · exact (ih acc seen).trans
        (List.Sublist.append_left (List.sublist_cons_self q rest) acc)
    · have := ih (acc ++ [q]) (ExamDataCleaner.normText q.text :: seen)
      simpa [List.append_assoc] using this

theorem removeDupGo_pairwise (thr : ℚ) (pending acc : List Qd)
    (seen : List (List Char))
    (hseen : ∀ e ∈ acc, ExamDataCleaner.normText e.text ∈ seen)
    (hacc : List.Pairwise (dupDistinct thr) acc) :
    List.Pairwise (dupDistinct thr)
      (ExamDataCleaner.removeDupGo thr pending acc seen) := by
  induction pending generalizing acc seen with
  | nil => exact hacc
  | cons q rest ih =>
    simp only [ExamDataCleaner.removeDupGo]
    split_ifs with h1 h2
    · exact ih acc seen hseen hacc
    · exact ih acc seen hseen hacc
    · refine ih (acc ++ [q]) _ ?_ ?_
      · intro e he
        rcases List.mem_append.mp he with he | he
        · exact List.mem_cons_of_mem _ (hseen e he)
        · rcases List.mem_singleton.mp he with rfl
          exact List.mem_cons_self _ _
      · rw [List.pairwise_append]
        refine ⟨hacc, List.pairwise_singleton _ _, ?_⟩
        intro a ha b hb
        rcases List.mem_singleton.mp hb with rfl
        constructor
        · intro hcontra
          exact h1 (hcontra ▸ hseen a ha)
        · by_contra hge
          exact h2 (List.any_eq_true.mpr ⟨a, ha,
            decide_eq_true (not_lt.mp hge)⟩)

theorem removeDupGo_dropped (thr : ℚ) (pending acc : List Qd)
    (seen : List (List Char))
    (hseen : ∀ s ∈ seen, ∃ e ∈ acc, ExamDataCleaner.normText e.text = s) :
    ∀ x ∈ pending, x ∉ ExamDataCleaner.removeDupGo thr pending acc seen →
      ∃ e ∈ ExamDataCleaner.removeDupGo thr pending acc seen,
        ExamDataCleaner.normText e.text = ExamDataCleaner.normText x.text ∨
        thr ≤ Difflib.similarityScore (ExamDataCleaner.normText x.text)
          (ExamDataCleaner.normText e.text) := by
  induction pending generalizing acc seen with
  | nil => intro x hx; simp at hx
  | cons q rest ih =>
    intro x hx hnot
    simp only [ExamDataCleaner.removeDupGo] at hnot ⊢
    rcases List.mem_cons.mp hx with rfl | hxr
    · split_ifs at hnot ⊢ with h1 h2
      · obtain ⟨e, he, hes⟩ := hseen _ h1
        exact ⟨e, removeDupGo_acc_mem thr rest acc seen e he, Or.inl hes⟩
      · obtain ⟨e, he, hdec⟩ := List.any_eq_true.mp h2
        exact ⟨e, removeDupGo_acc_mem thr rest acc seen e he,
          Or.inr (of_decide_eq_true hdec)⟩
      · exact absurd (removeDupGo_acc_mem thr rest (acc ++ [x]) _ x
          (List.mem_append_right _ (List.mem_singleton_self x))) hnot
    · split_ifs at hnot ⊢ with h1 h2
      · exact ih acc seen hseen x hxr hnot
      · exact ih acc seen hseen x hxr hnot
      · refine ih (acc ++ [q]) _ ?_ x hxr hnot
        intro s hs
        rcases List.mem_cons.mp hs with rfl | hsr
        · exact ⟨q, List.mem_append_right _ (List.mem_singleton_self q),
            rfl⟩
        · obtain ⟨e, he, hes⟩ := hseen s hsr
          exact ⟨e, List.mem_append_left _ he, hes⟩

theorem removeDupGo_no_drop (thr : ℚ) (pending acc : List Qd)
    (seen : List (List Char))
    (hseen : ∀ s ∈ seen, ∃ e ∈ acc, ExamDataCleaner.normText e.text = s)
    (hcross : ∀ x ∈ pending, ∀ e ∈ acc,
      ExamDataCleaner.normText e.text ≠ ExamDataCleaner.normText x.text ∧
      Difflib.similarityScore (ExamDataCleaner.normText x.text)
        (ExamDataCleaner.normText e.text) < thr)
    (hpw : List.Pairwise (dupDistinct thr) pending) :
    ExamDataCleaner.removeDupGo thr pending acc seen = acc ++ pending := by
  induction pending generalizing acc seen with
  | nil => simp [ExamDataCleaner.removeDupGo]
  | cons q rest ih =>
    have hq := hcross q (List.mem_cons_self q rest)
    simp only [ExamDataCleaner.removeDupGo]
    rw [if_neg, if_neg]
    · rw [ih (acc ++ [q]) _ ?_ ?_ (List.Pairwise.sublist
        (List.sublist_cons_self q rest) hpw)]
      · simp
      · intro s hs
        rcases List.mem_cons.mp hs with rfl | hsr
        · exact ⟨q, List.mem_append_right _ (List.mem_singleton_self q), rfl⟩
        · obtain ⟨e, he, hes⟩ := hseen s hsr
          exact ⟨e, List.mem_append_left _ he, hes⟩
      · intro x hx e he
        rcases List.mem_append.mp he with he | he
        · exact hcross x (List.mem_cons_of_mem _ hx) e he
        · rcases List.mem_singleton.mp he with rfl
          have := (List.pairwise_cons.mp hpw).1 x hx
          exact ⟨this.1, this.2⟩
    · intro hany
      obtain ⟨e, he, hdec⟩ := List.any_eq_true.mp hany
      exact absurd (of_decide_eq_true hdec) (not_le.mpr (hq e he).2)
    · intro hmem
      obtain ⟨e, he, hes⟩ := hseen _ hmem
      exact (hq e he).1 hes

/-! ### Helper lemmas: concrete similarity values -/

theorem simScore_second_first :
    Difflib.similarityScore (ExamDataCleaner.normText dupSecond.text)
      (ExamDataCleaner.normText dupFirst.text) = 9 / 10 := by
  have ht : Difflib.simTotal (ExamDataCleaner.normText dupSecond.text)
      (ExamDataCleaner.normText dupFirst.text) = 36 := by decide
  have hl1 : (ExamDataCleaner.normText dupSecond.text).length = 40 := by
    decide
  have hl2 : (ExamDataCleaner.normText dupFirst.text).length = 40 := by
    decide
  rw [Difflib.similarityScore, ht, hl1, hl2]
  norm_num

theorem simScore_third_first :
    Difflib.similarityScore (ExamDataCleaner.normText dupThird.text)
      (ExamDataCleaner.normText dupFirst.text) = 4 / 5 := by
  have ht : Difflib.simTotal (ExamDataCleaner.normText dupThird.text)
      (ExamDataCleaner.normText dupFirst.text) = 32 := by decide
  have hl1 : (ExamDataCleaner.normText dupThird.text).length = 40 := by
    decide
  have hl2 : (ExamDataCleaner.normText dupFirst.text).length = 40 := by
    decide
  rw [Difflib.similarityScore, ht, hl1, hl2]
  norm_num

theorem simScore_third_second :
    Difflib.similarityScore (ExamDataCleaner.normText dupThird.text)
      (ExamDataCleaner.normText dupSecond.text) = 9 / 10 := by
  have ht : Difflib.simTotal (ExamDataCleaner.normText dupThird.text)
      (ExamDataCleaner.normText dupSecond.text) = 36 := by decide
  have hl1 : (ExamDataCleaner.normText dupThird.text).length = 40 := by
    decide
  have hl2 : (ExamDataCleaner.normText dupSecond.text).length = 40 := by
    decide
  rw [Difflib.similarityScore, ht, hl1, hl2]
  norm_num

theorem removeDup_chain_eval :
    ExamDataCleaner.removeDuplicates [dupFirst, dupSecond, dupThird]
      (85 / 100) = [dupFirst, dupThird] := by
  have hd1 : (decide ((85 : ℚ) / 100 ≤ Difflib.similarityScore
      (ExamDataCleaner.normText dupSecond.text)
      (ExamDataCleaner.normText dupFirst.text))) = true :=
    decide_eq_true (by rw [simScore_second_first]; norm_num)
  have hd2 : (decide ((85 : ℚ) / 100 ≤ Difflib.similarityScore
      (ExamDataCleaner.normText dupThird.text)
      (ExamDataCleaner.normText dupFirst.text))) = false :=
    decide_eq_false (by rw [simScore_third_first]; norm_num)
  rw [ExamDataCleaner.removeDuplicates]
  rw [ExamDataCleaner.removeDupGo]
  rw [if_neg (List.not_mem_nil _)]
  rw [List.any_nil, if_neg (by simp)]
  rw [ExamDataCleaner.removeDupGo]
  rw [if_neg (by decide)]
  simp only [List.nil_append, List.any_cons, List.any_nil, Bool.or_false]
  rw [hd1, if_pos rfl]
  rw [ExamDataCleaner.removeDupGo]
  rw [if_neg (by decide)]
  simp only [List.nil_append, List.any_cons, List.any_nil, Bool.or_false]
  rw [hd2, if_neg (by simp)]
  rw [ExamDataCleaner.removeDupGo]
  rfl

/-! ### C8 -/

/-- C8 counterexample: `dupSecond` and `dupThird` have similarity 0.9 ≥
0.85, yet the retained member of that pair is `dupThird` — the *later*
one — because `dupSecond` was itself dropped as similar to the earlier
retained `dupFirst` (similarity 0.9) while `dupThird` stayed below the
threshold against `dupFirst` (similarity 0.8).  So a high-similarity
pair does not always collapse onto its first-encountered member. -/
theorem remove_duplicates_keep_first_counterexample :
    (85 : ℚ) / 100 ≤ Difflib.similarityScore
      (ExamDataCleaner.normText dupThird.text)
      (ExamDataCleaner.normText dupSecond.text) ∧
    ExamDataCleaner.removeDuplicates [dupFirst, dupSecond, dupThird]
      (85 / 100) = [dupFirst, dupThird] ∧
    dupSecond ∉ ExamDataCleaner.removeDuplicates
      [dupFirst, dupSecond, dupThird] (85 / 100) := by
  refine ⟨by rw [simScore_third_second]; norm_num, removeDup_chain_eval, ?_⟩
  rw [removeDup_chain_eval]
  decide

/-- C8 amended: the output of `remove_duplicates` is a subsequence of
the input on which normalized texts are pairwise distinct and pairwise
similarity stays below the threshold (so any two questions related by
an exact normalized match or by similarity ≥ threshold never both
survive), and every dropped question has a *retained* witness that is
an exact normalized match or ≥-threshold similar to it; the survivor of
such a pair is the first encountered only when the earlier member is
itself retained — an earlier member dropped against a previously
retained question can leave the later member as the survivor. -/
theorem remove_duplicates_amended (qs : List Qd) (thr : ℚ) :
    (ExamDataCleaner.removeDuplicates qs thr).Sublist qs ∧
    List.Pairwise (dupDistinct thr)
      (ExamDataCleaner.removeDuplicates qs thr) ∧
    (∀ q ∈ qs, q ∉ ExamDataCleaner.removeDuplicates qs thr →
      ∃ e ∈ ExamDataCleaner.removeDuplicates qs thr,
        ExamDataCleaner.normText e.text = ExamDataCleaner.normText q.text ∨
        thr ≤ Difflib.similarityScore (ExamDataCleaner.normText q.text)
          (ExamDataCleaner.normText e.text)) := by
  refine ⟨?_, ?_, ?_⟩
  · simpa using removeDupGo_sublist thr qs [] []
  · exact removeDupGo_pairwise thr qs [] [] (by simp) List.Pairwise.nil
  · exact removeDupGo_dropped thr qs [] [] (by simp)

/-- Witness for C8 (amended) on the three-question chain: the output is
a subsequence, and the dropped `dupSecond` has a retained
high-similarity witness. -/
theorem remove_duplicates_amended_witness :
    (ExamDataCleaner.removeDuplicates [dupFirst, dupSecond, dupThird]
      (85 / 100)).Sublist [dupFirst, dupSecond, dupThird] ∧
    ∃ e ∈ ExamDataCleaner.removeDuplicates [dupFirst, dupSecond, dupThird]
        (85 / 100),
      ExamDataCleaner.normText e.text =
        ExamDataCleaner.normText dupSecond.text ∨
      (85 : ℚ) / 100 ≤ Difflib.similarityScore
        (ExamDataCleaner.normText dupSecond.text)
        (ExamDataCleaner.normText e.text) :=
  ⟨(remove_duplicates_amended [dupFirst, dupSecond, dupThird] (85 / 100)).1,
   (remove_duplicates_amended [dupFirst, dupSecond, dupThird]
      (85 / 100)).2.2 dupSecond (by decide)
      (by rw [removeDup_chain_eval]; decide)⟩

/-! ### Helper lemmas: cleaner validation and single passes -/

theorem letterRatio_not_lt (letters len : Nat) (hl : 0 < len)
    (h : 15 * len ≤ 100 * letters) :
    ¬ (((letters : ℚ)) / ((len : ℚ)) < 15 / 100) := by
  rw [div_lt_div_iff (by exact_mod_cast hl) (by norm_num)]
  intro hcon
  have hnat : letters * 100 < 15 * len := by exact_mod_cast hcon
  omega

theorem validQuestionText_page :
    ExamDataCleaner.validQuestionText "Page 10 of 10 explain. why? ok" =
      true := by
  unfold ExamDataCleaner.validQuestionText
  dsimp only
  rw [if_neg (by decide), if_neg (by decide),
    if_neg (letterRatio_not_lt _ _ (by decide) (by decide)),
    if_neg (by decide), if_neg (by decide)]

theorem validQuestionText_explain :
    ExamDataCleaner.validQuestionText "explain. why? ok" = false := by
  unfold ExamDataCleaner.validQuestionText
  rw [if_pos (by decide)]

theorem validQuestionText_stable :
    ExamDataCleaner.validQuestionText
      "What is the elasticity of demand? Explain carefully." = true := by
  unfold ExamDataCleaner.validQuestionText
  dsimp only
  rw [if_neg (by decide), if_neg (by decide),
    if_neg (letterRatio_not_lt _ _ (by decide) (by decide)),
    if_neg (by decide), if_neg (by decide)]

theorem removeDuplicates_singleton (q : Qd) (thr : ℚ) :
    ExamDataCleaner.removeDuplicates [q] thr = [q] := by
  simp [ExamDataCleaner.removeDuplicates, ExamDataCleaner.removeDupGo]

theorem cleanDataset_noisy :
    ExamDataCleaner.cleanDataset [noisyQuestion] =
      [ExamDataCleaner.cleanQuestionStructure noisyQuestion] := by
  have hval : ExamDataCleaner.validateQuestion
      (ExamDataCleaner.cleanQuestionStructure noisyQuestion) = true := by
    have ht : (ExamDataCleaner.cleanQuestionStructure noisyQuestion).text =
        "Page 10 of 10 explain. why? ok" := by decide
    rw [ExamDataCleaner.validateQuestion, ht]
    exact validQuestionText_page
  rw [ExamDataCleaner.cleanDataset, List.map_cons, List.map_nil,
    List.filter_cons_of_pos hval, List.filter_nil]
  exact removeDuplicates_singleton _ _

theorem cleanDataset_noisy_twice :
    ExamDataCleaner.cleanDataset
      [ExamDataCleaner.cleanQuestionStructure noisyQuestion] = [] := by
  have hval : ExamDataCleaner.validateQuestion
      (ExamDataCleaner.cleanQuestionStructure
        (ExamDataCleaner.cleanQuestionStructure noisyQuestion)) = false := by
    have ht : (ExamDataCleaner.cleanQuestionStructure
        (ExamDataCleaner.cleanQuestionStructure noisyQuestion)).text =
        "explain. why? ok" := by decide
    rw [ExamDataCleaner.validateQuestion, ht]
    exact validQuestionText_explain
  rw [ExamDataCleaner.cleanDataset, List.map_cons, List.map_nil,
    List.filter_cons_of_neg (by simp [hval]),
    List.filter_nil]
  rfl

/-! ### C9 -/

/-- C9 counterexample: cleaning is not idempotent.  The question
`"Pa[]ge 10 of 10 explain. why? ok"` survives one cleaning pass (its
bracketed noise is removed, leaving a valid 30-character question), but
that removal *creates* a `Page n of n` noise match, so the second pass
strips it and rejects the remainder as too short: cleaning twice
shrinks the one-question list to the empty list. -/
theorem clean_dataset_not_idempotent_counterexample :
    (ExamDataCleaner.cleanDataset [noisyQuestion]).length = 1 ∧
    ExamDataCleaner.cleanDataset
      (ExamDataCleaner.cleanDataset [noisyQuestion]) = [] := by
  constructor
  · rw [cleanDataset_noisy]; rfl
  · rw [cleanDataset_noisy]; exact cleanDataset_noisy_twice

theorem cleanDataset_valid (qs : List Qd) :
    ∀ q ∈ ExamDataCleaner.cleanDataset qs,
      ExamDataCleaner.validateQuestion q = true := by
  intro q hq
  have hsub : (ExamDataCleaner.cleanDataset qs).Sublist
      ((qs.map ExamDataCleaner.cleanQuestionStructure).filter
        ExamDataCleaner.validateQuestion) := by
    rw [ExamDataCleaner.cleanDataset]
    simpa using removeDupGo_sublist (85 / 100)
      ((qs.map ExamDataCleaner.cleanQuestionStructure).filter
        ExamDataCleaner.validateQuestion) [] []
  exact (List.mem_filter.mp (hsub.subset hq)).2

theorem cqs_text_fixed (q : Qd)
    (h1 : ExamDataCleaner.removeNoise q.text = q.text)
    (h2 : q.question_type ≠ some "multiple_choice") :
    (ExamDataCleaner.cleanQuestionStructure q).text = q.text := by
  have hne : q.question_type.getD "other" ≠ "multiple_choice" := by
    cases hqt : q.question_type with
    | none => simp
    | some s =>
      intro hcon
      simp only [Option.getD] at hcon
      exact h2 (by rw [hqt, hcon])
  simp only [ExamDataCleaner.cleanQuestionStructure]
  rw [if_neg hne]
  dsimp only
  exact h1

/-- C9 amended: a second cleaning pass preserves the question list —
same texts, same count, same order — provided every question of the
first pass's output has a text that re-cleaning leaves unchanged (its
text is a fixed point of noise removal and it is not a multiple-choice
question, whose option extraction re-truncates).  Without that proviso
a second pass may genuinely shrink the list (see the counterexample):
noise removal can create a fresh noise-pattern match. -/
theorem clean_dataset_idempotent_amended (qs : List Qd)
    (hfix : ∀ q ∈ ExamDataCleaner.cleanDataset qs,
      ExamDataCleaner.removeNoise q.text = q.text ∧
      q.question_type ≠ some "multiple_choice") :
    (ExamDataCleaner.cleanDataset (ExamDataCleaner.cleanDataset qs)).map
        Qd.text =
      (ExamDataCleaner.cleanDataset qs).map Qd.text := by
  have htext : ∀ q ∈ ExamDataCleaner.cleanDataset qs,
      (ExamDataCleaner.cleanQuestionStructure q).text = q.text :=
    fun q hq => cqs_text_fixed q (hfix q hq).1 (hfix q hq).2
  have hfilter : ((ExamDataCleaner.cleanDataset qs).map
        ExamDataCleaner.cleanQuestionStructure).filter
        ExamDataCleaner.validateQuestion =
      (ExamDataCleaner.cleanDataset qs).map
        ExamDataCleaner.cleanQuestionStructure := by
    apply List.filter_eq_self.mpr
    intro x hx
    obtain ⟨q, hq, rfl⟩ := List.mem_map.mp hx
    show ExamDataCleaner.validQuestionText
      (ExamDataCleaner.cleanQuestionStructure q).text = true
    rw [htext q hq]
    exact cleanDataset_valid qs q hq
  have hpw : List.Pairwise (dupDistinct (85 / 100))
      (ExamDataCleaner.cleanDataset qs) := by
    rw [ExamDataCleaner.cleanDataset]
    exact removeDupGo_pairwise (85 / 100) _ [] [] (by simp)
      List.Pairwise.nil
  have hpwmap : List.Pairwise (dupDistinct (85 / 100))
      ((ExamDataCleaner.cleanDataset qs).map
        ExamDataCleaner.cleanQuestionStructure) := by
    rw [List.pairwise_map]
    refine List.Pairwise.imp_of_mem ?_ hpw
    intro a b ha hb hr
    unfold dupDistinct at hr ⊢
    rw [htext a ha, htext b hb]
    exact hr
  have hnodrop := removeDupGo_no_drop (85 / 100)
    ((ExamDataCleaner.cleanDataset qs).map
      ExamDataCleaner.cleanQuestionStructure) [] [] (by simp) (by simp)
    hpwmap
  conv_lhs => rw [ExamDataCleaner.cleanDataset]
  rw [hfilter, ExamDataCleaner.removeDuplicates, hnodrop, List.nil_append,
    List.map_map]
  exact List.map_congr_left (fun q hq => htext q hq)

/-- Witness for C9 (amended): a stable question list — one valid
question whose cleaned text is a fixed point — survives the second
pass unchanged. -/
theorem clean_dataset_idempotent_amended_witness :
    (ExamDataCleaner.cleanDataset
        (ExamDataCleaner.cleanDataset [stableQuestion])).map Qd.text =
      (ExamDataCleaner.cleanDataset [stableQuestion]).map Qd.text := by
  have hval : ExamDataCleaner.validateQuestion
      (ExamDataCleaner.cleanQuestionStructure stableQuestion) = true := by
    have ht : (ExamDataCleaner.cleanQuestionStructure stableQuestion).text =
        "What is the elasticity of demand? Explain carefully." := by decide
    rw [ExamDataCleaner.validateQuestion, ht]
    exact validQuestionText_stable
  have heq : ExamDataCleaner.cleanDataset [stableQuestion] =
      [ExamDataCleaner.cleanQuestionStructure stableQuestion] := by
    rw [ExamDataCleaner.cleanDataset, List.map_cons, List.map_nil,
      List.filter_cons_of_pos hval, List.filter_nil]
    exact removeDuplicates_singleton _ _
  exact clean_dataset_idempotent_amended [stableQuestion] (by
    rw [heq]
    intro q hq
    rcases List.mem_singleton.mp hq with rfl
    exact ⟨by decide, by decide⟩)
